import Mathlib

/-!
Shallow embedding of `src/schemas/gen.py` (a JSON-schema-driven Go/Python code
generator) together with theorems settling the claims C1..C10.

Conventions of the embedding:

* Python strings are Lean `String`s; the single Go source file a generator run
  reads is passed as its text, and the schema directory tree consulted by
  `find_schema` is an explicit `Env` parameter mapping a package and version
  directory to its `os.listdir` listing.
* `json.loads` is not re-implemented: every function receives the parsed
  document as a `Json` value alongside the raw text.  JSON `null` parses to
  Python `None`; the embedding keeps it as `Json.null` and translates it to
  "absent" exactly where the source's `is not None` / truthiness tests do.
* Fatal `AssertionError`s, and the stdlib exceptions the source can let
  escape (`KeyError`, `TypeError`, `AttributeError`, `FileNotFoundError`,
  `IndexError`), are modelled with `Except GenError`; each `GenError`
  constructor carries the values the corresponding Python message interpolates.
* The regular expressions used by the source are sequences of complementary
  character classes (`[\S]+` / `\s+`) and literals (plus a trailing `.*` or a
  final `([^,"]+)` group).  For such patterns greedy matching with
  backtracking coincides with maximal-munch scanning: a `[\S]+` group is
  followed in the pattern by `\s+` (or by nothing it constrains), its
  characters are non-whitespace, so the group can only end where a whitespace
  character (or the end of input) follows — i.e. at the end of its maximal
  run — and a `\s+` run likewise cannot stop early because the following
  literal starts with a non-whitespace character.  The matchers below
  therefore scan maximal runs; this is exact, not an approximation.
-/

namespace Gen

/-- ASCII whitespace: the set matched by Python's `\s` and stripped by
`str.strip()` on the ASCII inputs this generator processes. -/
def pyIsSpace (c : Char) : Bool :=
  c == ' ' || c == '\t' || c == '\n' || c == '\r' || c == '\x0b' || c == '\x0c'

/-- Python `str.strip()`. -/
def pystrip (s : String) : String :=
  String.mk (((s.data.dropWhile pyIsSpace).reverse.dropWhile pyIsSpace).reverse)

/-- Python `str.startswith` (also standing in for the literal prefixes of the
source's `re.match` patterns). -/
def pyStartsWith (s p : String) : Bool := p.data.isPrefixOf s.data

/-- Python `str.endswith`. -/
def pyEndsWith (s p : String) : Bool := p.data.isSuffixOf s.data

/-- Python `sep.join(xs)`. -/
def pyJoin (sep : String) : List String → String
  | [] => ""
  | [l] => l
  | l :: rest => l ++ sep ++ pyJoin sep rest

/-- Python `s[n:]`. -/
def strDrop (s : String) (n : Nat) : String := String.mk (s.data.drop n)

/-- Python `str.lower()` (ASCII). -/
def pyLower (s : String) : String := String.mk (s.data.map Char.toLower)

/-- Python `str.upper()` (ASCII). -/
def pyUpper (s : String) : String := String.mk (s.data.map Char.toUpper)

/-- Python `s[-2:]`. -/
def lastTwo (s : String) : String := String.mk ((s.data.reverse.take 2).reverse)

/-- Python `s[0].lower()`, the method-receiver letter.  Struct names matched
by the source's regexes are nonempty, so the empty case (an `IndexError` in
Python) is unreachable for its inputs. -/
def firstLower (s : String) : String :=
  match s.data with
  | [] => ""
  | c :: _ => String.mk [c.toLower]

/-- Parsed JSON documents (the result of `json.loads`).  No claim depends on
numeric semantics, so numbers are carried as `Int`.  Objects are association
lists in document order; the schema files this tool reads have unique keys
(on duplicates `json.loads` would keep the last, which is not modelled). -/
inductive Json where
  | null
  | bool (b : Bool)
  | num (n : Int)
  | str (s : String)
  | arr (xs : List Json)
  | obj (kvs : List (String × Json))

/-- The fatal failures of the source.  `AssertionError` messages are carried
structurally: one constructor per `raise` site, holding the values the
f-string message interpolates. -/
inductive GenError where
  | titleKeyError (url : String)
  | titleTypeError (url : String)
  | invalidTypeName (struct : String)
  | schemaNotFound
  | missingDir (pkg ver : String)
  | cannotClassify (lineno : Nat) (line : String)
  | structNotFound (struct : String)
  | noStructAfter
  | mustBePointer (tag ty : String)
  | doublePointer (tag ty : String)
  | nestedUnion (struct : String)
  | typeMismatch (field : String) (types : List String) (unionTypes : List String)
  | bothUnionAndFields (struct : String)
  | keyError (k : String)
  | attributeError
  | indexError
deriving DecidableEq

/-- Association-list lookup inside a JSON object (Python `dict` access). -/
def alookup : List (String × Json) → String → Option Json
  | [], _ => none
  | (k, v) :: rest, key => if k = key then some v else alookup rest key

/-- Python subscript `d[k]` on a parsed document: `KeyError` when the key is
missing, a `TypeError`-style abort when the value is not a dict. -/
def pySubscript (j : Json) (k : String) : Except GenError Json :=
  match j with
  | .obj kvs =>
    match alookup kvs k with
    | some v => .ok v
    | none => .error (.keyError k)
  | _ => .error .attributeError

/-- Python `d.get(k)` with no default: `AttributeError` when `d` is not a
dict, `None` (here `none`) when the key is missing.  A stored JSON `null` is
returned as `some .null`; callers translate it to Python `None` exactly where
the source does. -/
def pyGet (j : Json) (k : String) : Except GenError (Option Json) :=
  match j with
  | .obj kvs => .ok (alookup kvs k)
  | _ => .error .attributeError

/-- Python truthiness of a parsed JSON value, as used by the source's
`a or b` over the `required` lists. -/
def Json.truthy : Json → Bool
  | .null => false
  | .bool b => b
  | .num n => n != 0
  | .str s => s != ""
  | .arr xs => !xs.isEmpty
  | .obj kvs => !kvs.isEmpty

/-- Window pass of `camel_to_snake`: for each sliding triple
`(c0, c1, c2) in zip(name[:-2], name[1:-1], name[2:])` the source may insert
underscores (lower-to-upper transition, acronym ending) before emitting
`c1.lower()`. -/
def cts_windows : List Char → List Char
  | c0 :: c1 :: c2 :: rest =>
    (if c0.isLower && c1.isUpper then ['_'] else []) ++
    (if c0.isUpper && c1.isUpper && c2.isLower then ['_'] else []) ++
    [c1.toLower] ++ cts_windows (c1 :: c2 :: rest)
  | _ => []

/-- `camel_to_snake` from the source.  Python raises `IndexError` on the
empty string; both call sites pass nonempty names.  (On a one-character name
the source emits the character twice, since `name[0]` and `name[-1]`
coincide; the embedding reproduces that.) -/
def camel_to_snake (name : String) : String :=
  match name.data with
  | [] => ""
  | c :: rest =>
    String.mk (c.toLower ::
      (cts_windows (c :: rest) ++ [((c :: rest).getLast (by simp)).toLower]))

/-- `os.path.basename` of a slash path: the text after the last `/`. -/
def basename_chars (cs : List Char) : List Char :=
  (cs.reverse.takeWhile (fun c => !(c == '/'))).reverse

/-- `os.path.dirname` of a slash path: everything before the last run of
slashes.  (Python keeps a directory part consisting entirely of slashes; such
paths cannot arise from the `http://...`-prefixed URLs this tool builds.) -/
def dirname_chars (cs : List Char) : List Char :=
  ((cs.reverse.dropWhile (fun c => !(c == '/'))).dropWhile (fun c => c == '/')).reverse

/-- `Schema.version`: `os.path.basename(os.path.dirname(self.url))`. -/
def url_version (url : String) : String :=
  String.mk (basename_chars (dirname_chars url.data))

def URLBASE : String := "http://determined.ai/schemas"

/-- A loaded schema.  `json` stands for `json.loads text`; parsing itself
(and its "is not a valid json file" `ValueError`) is outside every claim. -/
structure Schema where
  url : String
  text : String
  json : Json
  golang_title : String
  python_title : String

/-- `Schema.__init__`: read the declared `title` (Python raises `KeyError`
when absent and `TypeError` when it is not a string — either aborts the run)
and derive the two naming keys from it and the version directory. -/
def mkSchema (url text : String) (j : Json) : Except GenError Schema :=
  match pySubscript j "title" with
  | .error _ => .error (.titleKeyError url)
  | .ok (.str title) =>
    .ok { url := url, text := text, json := j,
          golang_title := title ++ pyUpper (url_version url),
          python_title := camel_to_snake (title ++ pyUpper (url_version url)) }
  | .ok _ => .error (.titleTypeError url)

/-- One schema file as handed to `read_schemas`: its path relative to the
generator's directory (`os.path.relpath(file, os.path.dirname(__file__))`),
its raw text, and its parsed form. -/
structure RawFile where
  relpath : String
  text : String
  json : Json

/-- `os.path.flatten(URLBASE, urlend)` for the relative `urlend`s this tool
builds. -/
def mkUrl (relpath : String) : String := URLBASE ++ "/" ++ relpath

/-- The `for file in files` loop of `read_schemas`, building one `Schema` per
file in input order. -/
def read_schemas_loop : List RawFile → Except GenError (List Schema)
  | [] => .ok []
  | f :: rest =>
    match mkSchema (mkUrl f.relpath) f.text f.json with
    | .error e => .error e
    | .ok s =>
      match read_schemas_loop rest with
      | .error e => .error e
      | .ok ss => .ok (s :: ss)

/-- The sorting key of `read_schemas` (`schemas.sort(key=lambda s: s.url)`). -/
def schemaLe (a b : Schema) : Prop := a.url ≤ b.url

instance : DecidableRel schemaLe :=
  fun a b => inferInstanceAs (Decidable (a.url ≤ b.url))

/-- `read_schemas`: one `Schema` per file, then sort by canonical URL so the
output is deterministic.  Python's `list.sort` is a stable sort by the key;
`List.insertionSort` is a stable sort by the same key. -/
def read_schemas (files : List RawFile) : Except GenError (List Schema) :=
  match read_schemas_loop files with
  | .error e => .error e
  | .ok ss => .ok (List.insertionSort schemaLe ss)

/-- `gen_python`: the data-only aggregate artifact embedding every schema. -/
def gen_python (schemas : List Schema) : List String :=
  ["# This is a generated file.  Editing it will make you sad.",
   "",
   "import json",
   "",
   "schemas = \x7b"] ++
  (schemas.map (fun s =>
    ["    \"" ++ s.url ++ "\": json.loads(",
     "        r\"\"\"\n" ++ s.text ++ "\n\"\"\"",
     "    ),"])).flatten ++
  ["\x7d"]

/-- `gen_go_schemas_package`: the aggregate Go module embedding every
schema's raw text, a lazily-parsed form per schema, and the URL to bytes
map. -/
def gen_go_schemas_package (schemas : List Schema) : List String :=
  ["// Code generated by gen.py. DO NOT EDIT.",
   "",
   "package schemas",
   "",
   "import (",
   "\t\"encoding/json\"",
   ")",
   "",
   "var ("] ++
  schemas.map (fun s => "\ttext" ++ s.golang_title ++ " = []byte(`" ++ s.text ++ "`)") ++
  (schemas.map (fun s => ["\tschema" ++ s.golang_title ++ " interface\x7b\x7d", ""])).flatten ++
  ["\tcachedSchemaMap map[string]interface\x7b\x7d",
   "",
   "\tcachedSchemaBytesMap map[string][]byte",
   ")",
   ""] ++
  (schemas.map (fun s =>
    ["func Parsed" ++ s.golang_title ++ "() interface\x7b\x7d \x7b",
     "\tif schema" ++ s.golang_title ++ " != nil \x7b",
     "\t\treturn schema" ++ s.golang_title,
     "\t\x7d",
     "\terr := json.Unmarshal(text" ++ s.golang_title ++ ", &schema" ++ s.golang_title ++ ")",
     "\tif err != nil \x7b",
     "\t\tpanic(\"invalid embedded json for " ++ s.golang_title ++ "\")",
     "\t\x7d",
     "\treturn schema" ++ s.golang_title,
     "\x7d",
     ""])).flatten ++
  ["func schemaBytesMap() map[string][]byte \x7b",
   "\tif cachedSchemaBytesMap != nil \x7b",
   "\t\treturn cachedSchemaBytesMap",
   "\t\x7d",
   "\tvar url string",
   "\tcachedSchemaBytesMap = map[string][]byte\x7b\x7d"] ++
  (schemas.map (fun s =>
    ["\turl = \"" ++ s.url ++ "\"",
     "\tcachedSchemaBytesMap[url] = text" ++ s.golang_title])).flatten ++
  ["\treturn cachedSchemaBytesMap",
   "\x7d"]

/-- The directory tree consulted by `find_schema`: `env pkg ver` is the
`os.listdir` listing (in listing order) of `HERE/pkg/ver` as
(filename, raw text, parsed text) triples, or `none` when the directory does
not exist (`FileNotFoundError` in Python). -/
def Env : Type := String → String → Option (List (String × String × Json))

/-- `re.match(".*V[0-9]+", s) is not None`: the unanchored pattern matches a
prefix of `s` iff a `V` immediately followed by a digit occurs after only
non-newline characters (`.` does not match a newline).  Note there is no `$`:
the pattern does NOT require `s` to end in the version suffix, despite the
error message's wording. -/
def matchVdigit : List Char → Bool
  | c1 :: c2 :: rest =>
    (c1 == 'V' && c2.isDigit) || (!(c1 == '\n') && matchVdigit (c2 :: rest))
  | _ => false

/-- The `for file in os.listdir(dir)` loop of `find_schema`: skip non-JSON
files, load each schema, return the first whose `golang_title` matches. -/
def find_schema_loop (pkg ver struct : String) :
    List (String × String × Json) → Except GenError Schema
  | [] => .error .schemaNotFound
  | (fn, text, j) :: rest =>
    if !(pyEndsWith fn ".json") then find_schema_loop pkg ver struct rest
    else
      match mkSchema (URLBASE ++ "/" ++ pkg ++ "/" ++ ver ++ "/" ++ fn) text j with
      | .error e => .error e
      | .ok s =>
        if s.golang_title ≠ struct then find_schema_loop pkg ver struct rest
        else .ok s

/-- `find_schema`: locate a json-schema file from a struct name.  The version
directory is `struct[-2:].lower()`. -/
def find_schema (env : Env) (pkg struct : String) : Except GenError Schema :=
  if !matchVdigit struct.data then .error (.invalidTypeName struct)
  else
    match env pkg (pyLower (lastTwo struct)) with
    | none => .error (.missingDir pkg (pyLower (lastTwo struct)))
    | some files => find_schema_loop pkg (pyLower (lastTwo struct)) struct files

/-- Python `f.readlines()`: split after every newline, keeping the newline; a
final fragment without one is kept as well. -/
def readlines_go : List Char → List Char → List String
  | [], [] => []
  | [], acc => [String.mk acc.reverse]
  | c :: rest, acc =>
    if c == '\n' then String.mk (acc.reverse ++ ['\n']) :: readlines_go rest []
    else readlines_go rest (c :: acc)

def readlines (text : String) : List String := readlines_go text.data []

/-- `re.match("type ([\\S]+) struct", line)`, by the maximal-munch argument
in the header comment: the captured name is the maximal non-whitespace run
after `"type "`, and the literal `" struct"` must follow it. -/
def match_type_struct (line : String) : Option String :=
  if pyStartsWith line "type " then
    let p := (strDrop line 5).data.span (fun c => !pyIsSpace c)
    if !p.1.isEmpty && pyStartsWith (String.mk p.2) " struct" then some (String.mk p.1)
    else none
  else none

/-- The `for lineno, line in enumerate(f.readlines())` loop of
`next_struct_name`, skipping lines up to and including `start`. -/
def next_struct_loop (start : Nat) : Nat → List String → Except GenError String
  | _, [] => .error .noStructAfter
  | lineno, line :: rest =>
    if lineno ≤ start then next_struct_loop start (lineno + 1) rest
    else
      match match_type_struct line with
      | some name => .ok name
      | none => next_struct_loop start (lineno + 1) rest

/-- `next_struct_name`: the name of the next struct definition after a given
line (how the tool decides which struct a `//go:generate` comment governs). -/
def next_struct_name (text : String) (start : Nat) : Except GenError String :=
  next_struct_loop start 0 (readlines text)

/-- FieldSpec = (field, type, tag). -/
abbrev FieldSpec := String × String × String

/-- UnionSpec = (field, type). -/
abbrev UnionSpec := String × String

/-- Shared shape of the two body-line patterns,
`\t([\S]+)\s+([\S]+)\s+` followed by a backtick literal: a tab, the field
name (maximal non-whitespace run), whitespace, the type (maximal
non-whitespace run), whitespace, and the unconsumed remainder handed to the
literal that distinguishes the two patterns.  Maximal-munch is exact here by
the header comment's argument. -/
def match_field_shape (line : String) : Option (String × String × List Char) :=
  match line.data with
  | '\t' :: rest =>
    let pf := rest.span (fun c => !pyIsSpace c)
    if pf.1.isEmpty then none
    else
      let pw1 := pf.2.span pyIsSpace
      if pw1.1.isEmpty then none
      else
        let pt := pw1.2.span (fun c => !pyIsSpace c)
        if pt.1.isEmpty then none
        else
          let pw2 := pt.2.span pyIsSpace
          if pw2.1.isEmpty then none
          else some (String.mk pf.1, String.mk pt.1, pw2.2)
  | _ => none

/-- `re.match("\t([\\S]+)\\s+([\\S]+)\\s+`union.*", line)`: the union-marker
field pattern (the trailing `.*` constrains nothing). -/
def match_union_line (line : String) : Option (String × String) :=
  match match_field_shape line with
  | some (f, t, r) => if pyStartsWith (String.mk r) "`union" then some (f, t) else none
  | none => none

/-- `re.match('\t([\\S]+)\\s+([\\S]+)\\s+`json:"([^,"]+)', line)`: the tagged
plain-field pattern; the tag is the maximal run of characters that are
neither `,` nor `"` after the literal, and must be nonempty. -/
def match_field_line (line : String) : Option (String × String × String) :=
  match match_field_shape line with
  | some (f, t, r) =>
    if pyStartsWith (String.mk r) ("`json:" ++ "\"") then
      let tag := (r.drop 7).takeWhile (fun c => !(c == ',') && !(c == '"'))
      if tag.isEmpty then none else some (f, t, String.mk tag)
    else none
  | none => none

/-- `line.startswith(f"type {struct_name} struct")`, the line that switches
`find_struct` into its `fields` state. -/
def opens_struct (struct_name line : String) : Bool :=
  pyStartsWith line ("type " ++ struct_name ++ " struct")

/-- The `for lineno, line in enumerate(f.readlines())` state machine of
`find_struct`: `inside = false` is the `"pre"` state, `inside = true` the
`"fields"` state with the accumulated field and union specs. -/
def find_struct_loop (name : String) :
    Bool → Nat → List FieldSpec → List UnionSpec → List String →
    Except GenError (List FieldSpec × List UnionSpec)
  | _, _, fs, us, [] =>
    -- fell off the end of the file: missing or never-closed definition
    let _ := fs
    let _ := us
    .error (.structNotFound name)
  | false, lineno, fs, us, line :: rest =>
    if opens_struct name line then find_struct_loop name true (lineno + 1) fs us rest
    else find_struct_loop name false (lineno + 1) fs us rest
  | true, lineno, fs, us, line :: rest =>
    if pystrip line = "\x7d" then .ok (fs, us)
    else if pystrip line = "" then find_struct_loop name true (lineno + 1) fs us rest
    else if pyStartsWith line "\t//" then find_struct_loop name true (lineno + 1) fs us rest
    else
      match match_union_line line with
      | some fu => find_struct_loop name true (lineno + 1) fs (us ++ [fu]) rest
      | none =>
        match match_field_line line with
        | some ftt => find_struct_loop name true (lineno + 1) (fs ++ [ftt]) us rest
        | none => .error (.cannotClassify lineno line)

/-- `find_struct`: find a struct definition by name in a Go file's text and
extract its (FieldSpec list, UnionSpec list). -/
def find_struct (text struct_name : String) :
    Except GenError (List FieldSpec × List UnionSpec) :=
  find_struct_loop struct_name false 0 [] [] (readlines text)

/-- The `prop` computation of `get_defaulted_type`:
`schema.schema["properties"].get(tag, {})`, with a boolean `true` property
replaced by `{}`. -/
def prop_of (schema : Schema) (tag : String) : Except GenError Json :=
  match pySubscript schema.json "properties" with
  | .error e => .error e
  | .ok props =>
    match pyGet props tag with
    | .error e => .error e
    | .ok p =>
      let prop := p.getD (Json.obj [])
      -- `if prop is True: prop = {}` (a boolean-`true` sub-schema)
      .ok (match prop with
           | .bool true => Json.obj []
           | _ => prop)

/-- The `default` computation of `get_defaulted_type`:
`prop.get("default")`.  `json.loads` maps a JSON `null` to Python `None` and
`dict.get` yields `None` for a missing key, so both make the source's
`default is not None` test false; the embedding returns `none` for both. -/
def default_of (schema : Schema) (tag : String) : Except GenError (Option Json) :=
  match prop_of schema tag with
  | .error e => .error e
  | .ok prop =>
    match pyGet prop "default" with
    | .error e => .error e
    | .ok d =>
      .ok (match d with
           | some .null => none
           | some v => some v
           | none => none)

/-- The `required` computation of `get_defaulted_type`:
`schema.schema.get("required", []) or schema.schema.get("eventuallyRequired", [])`.
Python's `or` returns the right operand whenever the left is falsy — which
happens when `required` is absent, but also when it is present and `null` or
an empty list. -/
def required_of (schema : Schema) : Except GenError Json :=
  match pyGet schema.json "required" with
  | .error e => .error e
  | .ok r1 =>
    match pyGet schema.json "eventuallyRequired" with
    | .error e => .error e
    | .ok r2 =>
      let a := r1.getD (Json.arr [])
      let b := r2.getD (Json.arr [])
      .ok (if a.truthy then a else b)

/-- `get_defaulted_type`: the after-defaulting type of a field.  With a
(non-`None`) default the declared type must start with exactly one `*`
(otherwise the "must be a pointer" / "must not be a double pointer"
assertions fire) and the returned type drops it; without one the declared
type is returned unchanged. -/
def get_defaulted_type (schema : Schema) (tag ty : String) :
    Except GenError (String × Option Json × Json) :=
  match default_of schema tag with
  | .error e => .error e
  | .ok default =>
    match required_of schema with
    | .error e => .error e
    | .ok required =>
      match default with
      | some d =>
        if !(pyStartsWith ty "*") then .error (.mustBePointer tag ty)
        else if pyStartsWith ty "**" then .error (.doublePointer tag ty)
        else .ok (strDrop ty 1, some d, required)
      | none => .ok (ty, none, required)

/-- The per-field loop of `go_getters`: a transparent getter when the field
has no schema default, and a dereferencing getter behind a fatal nil check
when it has one. -/
def go_getters_loop (x struct : String) (schema : Schema) :
    List FieldSpec → Except GenError (List String)
  | [] => .ok []
  | (field, ty, tag) :: rest =>
    match get_defaulted_type schema tag ty with
    | .error e => .error e
    | .ok (defaulted_type, default, _required) =>
      let block :=
        match default with
        | none =>
          ["func (" ++ x ++ " " ++ struct ++ ") Get" ++ field ++ "() " ++ ty ++ " \x7b",
           "\treturn " ++ x ++ "." ++ field,
           "\x7d",
           ""]
        | some _ =>
          ["func (" ++ x ++ " " ++ struct ++ ") Get" ++ field ++ "() " ++ defaulted_type ++ " \x7b",
           "\tif " ++ x ++ "." ++ field ++ " == nil \x7b",
           "\t\tpanic(\"You must call WithDefaults on " ++ struct ++ " before .Get" ++ field ++ "\")",
           "\t\x7d",
           "\treturn *" ++ x ++ "." ++ field,
           "\x7d",
           ""]
      match go_getters_loop x struct schema rest with
      | .error e => .error e
      | .ok ls => .ok (block ++ ls)

/-- `go_getters`. -/
def go_getters (struct : String) (schema : Schema) (spec : List FieldSpec) :
    Except GenError (List String) :=
  if spec.length < 1 then .ok []
  else go_getters_loop (firstLower struct) struct schema spec

/-- Python dict assignment `members[field] = type`: replace in place when the
key exists, append otherwise (dict insertion order). -/
def dinsert : List (String × String) → String → String → List (String × String)
  | [], k, v => [(k, v)]
  | (k0, v0) :: rest, k, v =>
    if k0 = k then (k, v) :: rest else (k0, v0) :: dinsert rest k v

/-- Python dict read `members[field]` / `field in members`. -/
def dget : List (String × String) → String → Option String
  | [], _ => none
  | (k0, v0) :: rest, k => if k0 = k then some v0 else dget rest k

/-- The `for field, type, tag in spec` loop of `get_union_common_members`,
building one variant's field-to-effective-type dict. -/
def members_fold (schema : Schema) :
    List (String × String) → List FieldSpec → Except GenError (List (String × String))
  | m, [] => .ok m
  | m, (field, ty, tag) :: rest =>
    match get_defaulted_type schema tag ty with
    | .error e => .error e
    | .ok (t, _, _) => members_fold schema (dinsert m field t) rest

/-- One iteration of the `for struct in union_types` loop of
`get_union_common_members`: resolve the variant's schema and struct, reject
nested unions, and build its name-to-type dict. -/
def variant_members (env : Env) (pkg text struct : String) :
    Except GenError (List (String × String)) :=
  match find_schema env pkg struct with
  | .error e => .error e
  | .ok schema =>
    match find_struct text struct with
    | .error e => .error e
    | .ok (spec, union) =>
      if union.length > 0 then .error (.nestedUnion struct)
      else members_fold schema [] spec

/-- The whole `for struct in union_types` loop, in declared order. -/
def variants_loop (env : Env) (pkg text : String) :
    List String → Except GenError (List (List (String × String)))
  | [] => .ok []
  | s :: rest =>
    match variant_members env pkg text s with
    | .error e => .error e
    | .ok m =>
      match variants_loop env pkg text rest with
      | .error e => .error e
      | .ok ms => .ok (m :: ms)

/-- Python tuple comparison on the `(field, type)` pairs handed to
`sorted(...)` (lexicographic; the field names are distinct dict keys, so the
second component never decides). -/
def memberLe (a b : String × String) : Prop :=
  a.1 < b.1 ∨ (a.1 = b.1 ∧ a.2 ≤ b.2)

instance : DecidableRel memberLe :=
  fun a b => inferInstanceAs (Decidable (a.1 < b.1 ∨ (a.1 = b.1 ∧ a.2 ≤ b.2)))

/-- `get_union_common_members`: the fields common to all union member types.
Python's `common_fields` is a hash set; set membership — hence the
success/failure outcome and the sorted result — does not depend on its
iteration order, which only picks the reported field when several mismatch
(the embedding iterates in first-variant declaration order).  The final
`sorted({...}.items())` is the `filterMap` plus sort below. -/
def get_union_common_members (env : Env) (pkg text : String)
    (union_types : List String) : Except GenError (List (String × String)) :=
  match variants_loop env pkg text union_types with
  | .error e => .error e
  | .ok per =>
    match per with
    | [] => .error .indexError
    | m0 :: rest =>
      let common_fields :=
        (m0.map Prod.fst).filter (fun f => rest.all (fun m => (dget m f).isSome))
      match common_fields.find?
          (fun f => ((m0 :: rest).filterMap (fun m => dget m f)).dedup.length != 1) with
      | some f =>
        .error (.typeMismatch f (((m0 :: rest).filterMap (fun m => dget m f)).dedup)
                  union_types)
      | none =>
        .ok (List.insertionSort memberLe
          (common_fields.filterMap (fun f => (dget m0 f).map (fun t => (f, t)))))

/-- Semantics of the `GetUnionMember` body emitted by `go_unions`: one
`if x.F != nil` per union field in declared order whose body is the literal
`return nil`, then `panic("no union member defined")`.  The input is the list
of the union fields' runtime values in declared order; the outer `none` is
the panic, `some r` is a normal return of the Go interface value `r`
(`none` = Go `nil`). -/
def union_member_sem {V : Type} : List (Option V) → Option (Option V)
  | [] => none
  | v :: rest => if v.isSome then some none else union_member_sem rest

/-- `go_unions`: the `GetUnionMember()` dispatcher plus one getter per common
member.  (The `schema` parameter is unused, as in the source.) -/
def go_unions (env : Env) (struct pkg text : String) (schema : Schema)
    (union_spec : List UnionSpec) : Except GenError (List String) :=
  let _ := schema
  if union_spec.length < 1 then .ok []
  else
    let x := firstLower struct
    let dispatch :=
      ["func (" ++ x ++ " " ++ struct ++ ") GetUnionMember() interface\x7b\x7d \x7b"] ++
      (union_spec.map (fun fs =>
        ["\tif " ++ x ++ "." ++ fs.1 ++ " != nil \x7b",
         "\t\treturn nil",
         "\t\x7d"])).flatten ++
      ["\tpanic(\"no union member defined\")",
       "\x7d",
       ""]
    let union_types := union_spec.map (fun fs => String.mk (fs.2.data.dropWhile (fun c => c == '*')))
    match get_union_common_members env pkg text union_types with
    | .error e => .error e
    | .ok common_members =>
      .ok (dispatch ++
        (common_members.map (fun ct =>
          ["func (" ++ x ++ " " ++ struct ++ ") Get" ++ ct.1 ++ "() " ++ ct.2 ++ " \x7b"] ++
          (union_spec.map (fun fs =>
            ["\tif " ++ x ++ "." ++ fs.1 ++ " != nil \x7b",
             "\t\treturn " ++ x ++ "." ++ fs.1 ++ ".Get" ++ ct.1 ++ "()",
             "\t\x7d"])).flatten ++
          ["\tpanic(\"no union member defined\")",
           "\x7d",
           ""])).flatten)

/-- `go_helpers`: the `WithDefaults()` and `Merge()` wrappers. -/
def go_helpers (struct : String) : List String :=
  ["func (" ++ firstLower struct ++ " " ++ struct ++ ") WithDefaults() " ++ struct ++ " \x7b",
   "\treturn schemas.WithDefaults(" ++ firstLower struct ++ ").(" ++ struct ++ ")",
   "\x7d",
   "",
   "func (" ++ firstLower struct ++ " " ++ struct ++ ") Merge(other " ++ struct ++ ") " ++ struct ++ " \x7b",
   "\treturn schemas.Merge(" ++ firstLower struct ++ ", other).(" ++ struct ++ ")",
   "\x7d"]

/-- `go_schema_interface`: the schema-binding accessors. -/
def go_schema_interface (struct url : String) : List String :=
  ["",
   "func (" ++ firstLower struct ++ " " ++ struct ++ ") ParsedSchema() interface\x7b\x7d \x7b",
   "\treturn schemas.Parsed" ++ struct ++ "()",
   "\x7d",
   "",
   "func (" ++ firstLower struct ++ " " ++ struct ++ ") SanityValidator() *jsonschema.Schema \x7b",
   "\treturn schemas.GetSanityValidator(\"" ++ url ++ "\")",
   "\x7d",
   "",
   "func (" ++ firstLower struct ++ " " ++ struct ++ ") CompletenessValidator() *jsonschema.Schema \x7b",
   "\treturn schemas.GetCompletenessValidator(\"" ++ url ++ "\")",
   "\x7d"]

/-- `gen_go_struct`: per-struct generation driven by a `//go:generate`
comment.  `if len(field_spec) and len(union_spec)` aborts with the
"has both union tags and normal fields" assertion before any code is
rendered. -/
def gen_go_struct (env : Env) (package text : String) (line : Nat)
    (imports : List String) : Except GenError (String × List String) :=
  match next_struct_name text line with
  | .error e => .error e
  | .ok struct =>
    match find_struct text struct with
    | .error e => .error e
    | .ok (field_spec, union_spec) =>
      if field_spec.length ≠ 0 ∧ union_spec.length ≠ 0 then
        .error (.bothUnionAndFields struct)
      else
        match find_schema env package struct with
        | .error e => .error e
        | .ok schema =>
          let header :=
            ["// Code generated by gen.py. DO NOT EDIT.",
             "",
             "package " ++ package,
             "",
             "import (",
             "\t\"github.com/santhosh-tekuri/jsonschema/v2\""] ++
            imports.map (fun imp => "\t" ++ imp) ++
            ["",
             "\t\"github.com/determined-ai/determined/master/pkg/schemas\"",
             ")",
             ""]
          match go_getters struct schema field_spec with
          | .error e => .error e
          | .ok g =>
            match go_unions env struct package text schema union_spec with
            | .error e => .error e
            | .ok u =>
              .ok ("zgen_" ++ camel_to_snake struct ++ ".go",
                   header ++ g ++ u ++ go_helpers struct ++
                   go_schema_interface struct schema.url)

/-- The persistent state `maybe_write_output` touches: an association list of
file paths to contents, plus the default sink (stdout). -/
structure World where
  files : List (String × String)
  stdout : String
deriving DecidableEq

/-- `os.path.exists` plus `open(output, "r").read()`. -/
def fsRead : List (String × String) → String → Option String
  | [], _ => none
  | (p, c) :: rest, path => if p = path then some c else fsRead rest path

/-- `open(output, "w").write(text)`: replace the existing entry or create the
file. -/
def fsWrite : List (String × String) → String → String → List (String × String)
  | [], path, text => [(path, text)]
  | (p, c) :: rest, path, text =>
    if p = path then (path, text) :: rest else (p, c) :: fsWrite rest path text

/-- `maybe_write_output`: join the lines with a trailing newline; write to
stdout when no output path is given; when the output file exists with exactly
this content, do nothing; otherwise overwrite it. -/
def maybe_write_output (lines : List String) (output : Option String) (w : World) : World :=
  let text := pyJoin "\n" lines ++ "\n"
  match output with
  | none => { w with stdout := w.stdout ++ text }
  | some path =>
    match fsRead w.files path with
    | some existing =>
      if existing = text then w
      else { w with files := fsWrite w.files path text }
    | none => { w with files := fsWrite w.files path text }

end Gen

namespace Gen

/-! ## Helper lemmas shared by several claims -/

theorem go_getters_loop_append (x struct : String) (schema : Schema)
    (pre rest : List FieldSpec) (L : List String)
    (h : go_getters_loop x struct schema pre = .ok L) :
    go_getters_loop x struct schema (pre ++ rest) =
      (go_getters_loop x struct schema rest).map (fun ls => L ++ ls) := by
  induction pre generalizing L with
  | nil =>
    simp only [go_getters_loop] at h
    cases h
    cases hres : go_getters_loop x struct schema rest <;> simp [Except.map, hres]
  | cons hd tl ih =>
    obtain ⟨f, t, g⟩ := hd
    simp only [go_getters_loop, List.cons_append] at h ⊢
    cases hg : get_defaulted_type schema g t with
    | error e => rw [hg] at h; exact absurd h (by simp)
    | ok trip =>
      rw [hg] at h
      obtain ⟨dt, dflt, req⟩ := trip
      cases htl : go_getters_loop x struct schema tl with
      | error e => rw [htl] at h; simp at h
      | ok L2 =>
        rw [htl] at h
        simp only [Except.ok.injEq] at h
        simp only [List.append_eq]
        rw [ih L2 htl]
        cases hres : go_getters_loop x struct schema rest with
        | error e => simp [Except.map]
        | ok L3 => simp [Except.map, ← h, List.append_assoc]

end Gen

namespace Gen

/-! ## C8 -/

/-- C8: `maybe_write_output` appends the joined text to the default sink
(stdout) unconditionally when no destination is given; when the destination
exists holding exactly the rendered text it does nothing; otherwise it
overwrites the destination with the rendered text. -/
theorem c8_maybe_write_output (lines : List String) (w : World) :
    (maybe_write_output lines none w =
      { w with stdout := w.stdout ++ (pyJoin "\n" lines ++ "\n") }) ∧
    (∀ path, fsRead w.files path = some (pyJoin "\n" lines ++ "\n") →
      maybe_write_output lines (some path) w = w) ∧
    (∀ path, fsRead w.files path ≠ some (pyJoin "\n" lines ++ "\n") →
      maybe_write_output lines (some path) w =
        { w with files := fsWrite w.files path (pyJoin "\n" lines ++ "\n") }) := by
  refine ⟨rfl, ?_, ?_⟩
  · intro path h
    unfold maybe_write_output
    simp [h]
  · intro path h
    unfold maybe_write_output
    cases hr : fsRead w.files path with
    | none => simp [hr]
    | some ex =>
      have hne : ex ≠ pyJoin "\n" lines ++ "\n" := by
        intro he
        exact h (by rw [hr, he])
      simp [hr, hne]

/-- Witness for C8: an unchanged file is left untouched, a differing file is
overwritten, and the no-destination case goes to stdout. -/
theorem c8_witness :
    maybe_write_output ["a"] (some "f") ⟨[("f", "a\n")], ""⟩ = ⟨[("f", "a\n")], ""⟩ ∧
    maybe_write_output ["b"] (some "f") ⟨[("f", "a\n")], ""⟩ = ⟨[("f", "b\n")], ""⟩ ∧
    maybe_write_output ["a"] none ⟨[("f", "a\n")], ""⟩ = ⟨[("f", "a\n")], "a\n"⟩ := by
  refine ⟨?_, ?_, ?_⟩
  · exact (c8_maybe_write_output ["a"] ⟨[("f", "a\n")], ""⟩).2.1 "f" rfl
  · exact (c8_maybe_write_output ["b"] ⟨[("f", "a\n")], ""⟩).2.2 "f" (by decide)
  · exact (c8_maybe_write_output ["a"] ⟨[("f", "a\n")], ""⟩).1

/-! ## C7 -/

/-- C7: when the extracted descriptor has both a non-empty plain-field list
and a non-empty union-field list, per-type generation fails with the fatal
"has both union tags and normal fields" error, before any code or schema
lookup happens. -/
theorem c7_both_kinds_fatal (env : Env) (package text : String) (line : Nat)
    (imports : List String) (struct : String) (fs : List FieldSpec)
    (us : List UnionSpec)
    (hname : next_struct_name text line = .ok struct)
    (hfind : find_struct text struct = .ok (fs, us))
    (hfs : fs ≠ []) (hus : us ≠ []) :
    gen_go_struct env package text line imports =
      .error (.bothUnionAndFields struct) := by
  have h1 : fs.length ≠ 0 := fun h => hfs (List.length_eq_zero.mp h)
  have h2 : us.length ≠ 0 := fun h => hus (List.length_eq_zero.mp h)
  simp only [gen_go_struct, hname, hfind]
  simp [h1, h2]

def textC7 : String :=
  "//go:generate gen\ntype BothV1 struct \x7b\n\tName string `json:\"name\"`\n\tA *AV1 `union:\"type,a\"`\n\x7d\n"

/-- Witness for C7 on a struct carrying one tagged field and one union
field. -/
theorem c7_witness :
    gen_go_struct (fun _ _ => none) "expconf" textC7 0 [] =
      .error (.bothUnionAndFields "BothV1") :=
  c7_both_kinds_fatal (fun _ _ => none) "expconf" textC7 0 [] "BothV1"
    [("Name", "string", "name")] [("A", "*AV1")] rfl rfl
    (by simp) (by simp)

end Gen

namespace Gen

/-! ## C9 -/

def schemaC9 : Schema :=
  { url := "u", text := "t",
    json := .obj [("properties", .obj []), ("required", .arr []),
                  ("eventuallyRequired", .arr [.str "x"])],
    golang_title := "TV1", python_title := "tv1" }

/-- C9 counterexample: the schema's `required` entry is present (the empty
list), yet the resolver returns the `eventuallyRequired` list — so the
fallback is not governed by absence alone, refuting the claim as stated. -/
theorem c9_counterexample :
    alookup [("properties", Json.obj []), ("required", Json.arr []),
             ("eventuallyRequired", Json.arr [Json.str "x"])] "required" =
      some (.arr []) ∧
    get_defaulted_type schemaC9 "name" "string" =
      .ok ("string", none, .arr [.str "x"]) :=
  ⟨rfl, rfl⟩

/-- C9 (amended): the `required` metadata returned by `get_defaulted_type`
is the value computed by `required_of`; that value is the schema's `required`
entry when it is present and Python-truthy (a nonempty list), and the
`eventuallyRequired` entry (or `[]`) exactly when `required` is absent or
falsy (`null` or an empty list). -/
theorem c9_required_fallback :
    (∀ schema tag ty t d r, get_defaulted_type schema tag ty = .ok (t, d, r) →
        required_of schema = .ok r) ∧
    (∀ (schema : Schema) kvs r, schema.json = .obj kvs →
        alookup kvs "required" = some r → r.truthy = true →
        required_of schema = .ok r) ∧
    (∀ (schema : Schema) kvs, schema.json = .obj kvs →
        ((alookup kvs "required").getD (Json.arr [])).truthy = false →
        required_of schema =
          .ok ((alookup kvs "eventuallyRequired").getD (Json.arr []))) := by
  refine ⟨?_, ?_, ?_⟩
  · intro schema tag ty t d r h
    unfold get_defaulted_type at h
    split at h
    · exact absurd h (by simp)
    · rename_i dflt hd
      split at h
      · exact absurd h (by simp)
      · rename_i req hr
        split at h
        · rename_i v
          split at h
          · exact absurd h (by simp)
          · split at h
            · exact absurd h (by simp)
            · obtain ⟨-, -, h3⟩ : strDrop ty 1 = t ∧ (some v : Option Json) = d ∧ req = r := by
                simpa using h
              rw [hr, h3]
        · obtain ⟨-, -, h3⟩ : ty = t ∧ (none : Option Json) = d ∧ req = r := by
            simpa using h
          rw [hr, h3]
  · intro schema kvs r hjson hlook htruthy
    unfold required_of
    rw [hjson]
    simp only [pyGet, hlook]
    simp [htruthy]
  · intro schema kvs hjson hfalsy
    unfold required_of
    rw [hjson]
    simp only [pyGet]
    simp [hfalsy]

/-- Witness for the amended C9: a truthy `required` wins; a falsy one falls
back. -/
theorem c9_witness :
    required_of { url := "u", text := "t",
                  json := .obj [("required", .arr [.str "a"]),
                                ("eventuallyRequired", .arr [.str "x"])],
                  golang_title := "TV1", python_title := "tv1" } =
      .ok (.arr [.str "a"]) ∧
    required_of schemaC9 = .ok (.arr [.str "x"]) := by
  constructor
  · exact c9_required_fallback.2.1 _ [("required", .arr [.str "a"]),
      ("eventuallyRequired", .arr [.str "x"])] (.arr [.str "a"]) rfl rfl rfl
  · exact c9_required_fallback.2.2 schemaC9 [("properties", .obj []),
      ("required", .arr []), ("eventuallyRequired", .arr [.str "x"])] rfl rfl

/-! ## C10 -/

/-- C10: a schema property with an explicit JSON `null` default is treated
exactly as if it had no default: the pointer constraint is not enforced, the
declared type is returned unchanged, and the emitted getter is the
transparent (non-dereferencing, non-panicking) form. -/
theorem c10_null_default (schema : Schema) (tag ty field struct : String)
    (prop : Json) (r : Json)
    (hprop : prop_of schema tag = .ok prop)
    (hnull : pyGet prop "default" = .ok (some .null))
    (hreq : required_of schema = .ok r) :
    get_defaulted_type schema tag ty = .ok (ty, none, r) ∧
    go_getters struct schema [(field, ty, tag)] =
      .ok ["func (" ++ firstLower struct ++ " " ++ struct ++ ") Get" ++ field ++ "() " ++ ty ++ " \x7b",
           "\treturn " ++ firstLower struct ++ "." ++ field,
           "\x7d",
           ""] := by
  have hdflt : default_of schema tag = .ok none := by
    simp only [default_of, hprop, hnull]
  have hgdt : get_defaulted_type schema tag ty = .ok (ty, none, r) := by
    simp only [get_defaulted_type, hdflt, hreq]
  refine ⟨hgdt, ?_⟩
  simp only [go_getters, go_getters_loop, hgdt]
  simp

def schemaC10 : Schema :=
  { url := "u", text := "t",
    json := .obj [("properties", .obj [("name", .obj [("default", .null)])])],
    golang_title := "WidgetV1", python_title := "widget_v1" }

/-- Witness for C10: `"default": null` on a non-pointer field — no error,
type unchanged, transparent getter. -/
theorem c10_witness :
    get_defaulted_type schemaC10 "name" "string" = .ok ("string", none, .arr []) ∧
    go_getters "WidgetV1" schemaC10 [("Name", "string", "name")] =
      .ok ["func (w WidgetV1) GetName() string \x7b",
           "\treturn w.Name",
           "\x7d",
           ""] :=
  c10_null_default schemaC10 "name" "string" "Name" "WidgetV1"
    (.obj [("default", .null)]) (.arr []) rfl rfl rfl

end Gen

namespace Gen

/-! ## C2 -/

/-- C2: with a schema-declared (non-null) default the declared type must be
exactly one level of pointer — "must be a pointer" fires on non-pointer
types, "must not be a double pointer" on doubly-qualified types — and the
effective type drops the one `*`; the getter emitted for such a field
returns the effective type and dereferences behind a fatal nil check, while
the getter for a field without a default returns the declared type
unchanged. -/
theorem c2_defaulted_type_and_getters :
    (∀ schema tag ty v r, default_of schema tag = .ok (some v) →
       required_of schema = .ok r →
       pyStartsWith ty "*" = false →
       get_defaulted_type schema tag ty = .error (.mustBePointer tag ty)) ∧
    (∀ schema tag ty v r, default_of schema tag = .ok (some v) →
       required_of schema = .ok r →
       pyStartsWith ty "**" = true →
       get_defaulted_type schema tag ty = .error (.doublePointer tag ty)) ∧
    (∀ schema tag ty v r, default_of schema tag = .ok (some v) →
       required_of schema = .ok r →
       pyStartsWith ty "*" = true → pyStartsWith ty "**" = false →
       get_defaulted_type schema tag ty = .ok (strDrop ty 1, some v, r)) ∧
    (∀ schema tag ty r, default_of schema tag = .ok none →
       required_of schema = .ok r →
       get_defaulted_type schema tag ty = .ok (ty, none, r)) ∧
    (∀ x struct schema pre post field ty tag L r,
       go_getters_loop x struct schema pre = .ok L →
       default_of schema tag = .ok none →
       required_of schema = .ok r →
       go_getters_loop x struct schema (pre ++ (field, ty, tag) :: post) =
         (go_getters_loop x struct schema post).map (fun rest =>
           L ++ (["func (" ++ x ++ " " ++ struct ++ ") Get" ++ field ++ "() " ++ ty ++ " \x7b",
                  "\treturn " ++ x ++ "." ++ field,
                  "\x7d",
                  ""] ++ rest))) ∧
    (∀ x struct schema pre post field ty tag L v r,
       go_getters_loop x struct schema pre = .ok L →
       default_of schema tag = .ok (some v) →
       required_of schema = .ok r →
       pyStartsWith ty "*" = true → pyStartsWith ty "**" = false →
       go_getters_loop x struct schema (pre ++ (field, ty, tag) :: post) =
         (go_getters_loop x struct schema post).map (fun rest =>
           L ++ (["func (" ++ x ++ " " ++ struct ++ ") Get" ++ field ++ "() " ++ strDrop ty 1 ++ " \x7b",
                  "\tif " ++ x ++ "." ++ field ++ " == nil \x7b",
                  "\t\tpanic(\"You must call WithDefaults on " ++ struct ++ " before .Get" ++ field ++ "\")",
                  "\t\x7d",
                  "\treturn *" ++ x ++ "." ++ field,
                  "\x7d",
                  ""] ++ rest))) ∧
    (∀ struct schema spec, spec ≠ [] →
       go_getters struct schema spec =
         go_getters_loop (firstLower struct) struct schema spec) := by
  refine ⟨?_, ?_, ?_, ?_, ?_, ?_, ?_⟩
  · intro schema tag ty v r hd hr hty
    simp only [get_defaulted_type, hd, hr, hty]
    simp
  · intro schema tag ty v r hd hr hty
    have h1 : pyStartsWith ty "*" = true := by
      unfold pyStartsWith at hty ⊢
      have h2 : "**".data = ['*', '*'] := rfl
      have h3 : "*".data = ['*'] := rfl
      rw [h2] at hty
      rw [h3]
      cases hdata : ty.data with
      | nil => rw [hdata] at hty; exact absurd hty (by decide)
      | cons a as =>
        rw [hdata] at hty
        simp only [List.isPrefixOf, Bool.and_eq_true, Bool.and_true] at hty ⊢
        exact hty.1
    simp only [get_defaulted_type, hd, hr, h1, hty]
    simp
  · intro schema tag ty v r hd hr h1 h2
    simp only [get_defaulted_type, hd, hr, h1, h2]
    simp
  · intro schema tag ty r hd hr
    simp only [get_defaulted_type, hd, hr]
  · intro x struct schema pre post field ty tag L r hpre hd hr
    have hgdt : get_defaulted_type schema tag ty = .ok (ty, none, r) := by
      simp only [get_defaulted_type, hd, hr]
    rw [go_getters_loop_append x struct schema pre ((field, ty, tag) :: post) L hpre]
    simp only [go_getters_loop, hgdt]
    cases hpost : go_getters_loop x struct schema post <;>
      simp [Except.map, List.append_assoc]
  · intro x struct schema pre post field ty tag L v r hpre hd hr h1 h2
    have hgdt : get_defaulted_type schema tag ty = .ok (strDrop ty 1, some v, r) := by
      simp only [get_defaulted_type, hd, hr, h1, h2]
      simp
    rw [go_getters_loop_append x struct schema pre ((field, ty, tag) :: post) L hpre]
    simp only [go_getters_loop, hgdt]
    cases hpost : go_getters_loop x struct schema post <;>
      simp [Except.map, List.append_assoc]
  · intro struct schema spec hspec
    cases spec with
    | nil => exact absurd rfl hspec
    | cons hd tl => simp [go_getters]

def schemaC2Def : Schema :=
  { url := "u", text := "t",
    json := .obj [("properties", .obj [("name", .obj [("default", .str "anon")])]),
                  ("required", .arr [.str "name"])],
    golang_title := "WidgetV1", python_title := "widget_v1" }

def schemaC2NoDef : Schema :=
  { url := "u", text := "t",
    json := .obj [("properties", .obj [("name", .obj [])]),
                  ("required", .arr [.str "name"])],
    golang_title := "WidgetV1", python_title := "widget_v1" }

/-- Witness for C2: the two failure modes, the pointer-dropping success, and
the two getter shapes, at concrete schemas. -/
theorem c2_witness :
    get_defaulted_type schemaC2Def "name" "string" =
      .error (.mustBePointer "name" "string") ∧
    get_defaulted_type schemaC2Def "name" "**string" =
      .error (.doublePointer "name" "**string") ∧
    get_defaulted_type schemaC2Def "name" "*string" =
      .ok ("string", some (.str "anon"), .arr [.str "name"]) ∧
    go_getters_loop "w" "WidgetV1" schemaC2NoDef
        ([] ++ ("Name", "string", "name") :: []) =
      (go_getters_loop "w" "WidgetV1" schemaC2NoDef []).map (fun rest =>
        [] ++ (["func (w WidgetV1) GetName() string \x7b",
                "\treturn w.Name",
                "\x7d",
                ""] ++ rest)) ∧
    go_getters_loop "w" "WidgetV1" schemaC2Def
        ([] ++ ("Name", "*string", "name") :: []) =
      (go_getters_loop "w" "WidgetV1" schemaC2Def []).map (fun rest =>
        [] ++ (["func (w WidgetV1) GetName() " ++ strDrop "*string" 1 ++ " \x7b",
                "\tif w.Name == nil \x7b",
                "\t\tpanic(\"You must call WithDefaults on WidgetV1 before .GetName\")",
                "\t\x7d",
                "\treturn *w.Name",
                "\x7d",
                ""] ++ rest)) ∧
    go_getters "WidgetV1" schemaC2NoDef [("Name", "string", "name")] =
      go_getters_loop (firstLower "WidgetV1") "WidgetV1" schemaC2NoDef
        [("Name", "string", "name")] := by
  refine ⟨?_, ?_, ?_, ?_, ?_, ?_⟩
  · exact c2_defaulted_type_and_getters.1 schemaC2Def "name" "string"
      (.str "anon") (.arr [.str "name"]) rfl rfl rfl
  · exact c2_defaulted_type_and_getters.2.1 schemaC2Def "name" "**string"
      (.str "anon") (.arr [.str "name"]) rfl rfl rfl
  · exact c2_defaulted_type_and_getters.2.2.1 schemaC2Def "name" "*string"
      (.str "anon") (.arr [.str "name"]) rfl rfl rfl rfl
  · exact c2_defaulted_type_and_getters.2.2.2.2.1 "w" "WidgetV1" schemaC2NoDef
      [] [] "Name" "string" "name" [] (.arr [.str "name"]) rfl rfl rfl
  · exact c2_defaulted_type_and_getters.2.2.2.2.2.1 "w" "WidgetV1" schemaC2Def
      [] [] "Name" "*string" "name" [] (.str "anon") (.arr [.str "name"])
      rfl rfl rfl rfl rfl
  · exact c2_defaulted_type_and_getters.2.2.2.2.2.2
      "WidgetV1" schemaC2NoDef [("Name", "string", "name")] (by simp)

end Gen

namespace Gen

/-! ## C1 -/

def jsonAV1 : Json :=
  .obj [("title", .str "A"), ("properties", .obj [("name", .obj [])])]

def jsonBV1 : Json :=
  .obj [("title", .str "B"), ("properties", .obj [("name", .obj [])])]

def envC1 : Env := fun pkg ver =>
  if pkg = "expconf" ∧ ver = "v1" then
    some [("a.json", "\x7b\x7d", jsonAV1), ("b.json", "\x7b\x7d", jsonBV1)]
  else none

def textC1 : String :=
  "type CV1 struct \x7b\n" ++
  "\tA *AV1 `union:\"type,a\"`\n" ++
  "\tB *BV1 `union:\"type,b\"`\n" ++
  "\x7d\n" ++
  "type AV1 struct \x7b\n" ++
  "\tName string `json:\"name\"`\n" ++
  "\x7d\n" ++
  "type BV1 struct \x7b\n" ++
  "\tName string `json:\"name\"`\n" ++
  "\x7d\n"

def schemaCV1 : Schema :=
  { url := "u", text := "t", json := .obj [],
    golang_title := "CV1", python_title := "cv1" }

/-- C1 (code bug): the emitted `GetUnionMember` does check the union fields
in declared order and panic with "no union member defined" when none is
present, but the body emitted for a present member is the literal
`return nil` — the dispatcher never returns the member's identity.
`union_member_sem` is the runtime meaning of the emitted body: with the
first variant populated it evaluates to a normal return of Go `nil`
(`some none`), not to the member's value. -/
theorem c1_get_union_member_returns_nil :
    go_unions envC1 "CV1" "expconf" textC1 schemaCV1 [("A", "*AV1"), ("B", "*BV1")] =
      .ok ["func (c CV1) GetUnionMember() interface\x7b\x7d \x7b",
           "\tif c.A != nil \x7b",
           "\t\treturn nil",
           "\t\x7d",
           "\tif c.B != nil \x7b",
           "\t\treturn nil",
           "\t\x7d",
           "\tpanic(\"no union member defined\")",
           "\x7d",
           "",
           "func (c CV1) GetName() string \x7b",
           "\tif c.A != nil \x7b",
           "\t\treturn c.A.GetName()",
           "\t\x7d",
           "\tif c.B != nil \x7b",
           "\t\treturn c.B.GetName()",
           "\t\x7d",
           "\tpanic(\"no union member defined\")",
           "\x7d",
           ""] ∧
    union_member_sem [some 7, none] = some (none : Option Nat) ∧
    union_member_sem [some 7, none] ≠ some (some 7) ∧
    union_member_sem ([] : List (Option Nat)) = none := by
  refine ⟨rfl, rfl, ?_, rfl⟩
  intro h
  simp [union_member_sem] at h

end Gen

namespace Gen

/-! ## C3 -/

theorem find_schema_loop_not_found (pkg ver struct : String) :
    ∀ files : List (String × String × Json),
    (∀ fn text j, (fn, text, j) ∈ files → pyEndsWith fn ".json" = true →
       ∃ s, mkSchema (URLBASE ++ "/" ++ pkg ++ "/" ++ ver ++ "/" ++ fn) text j = .ok s ∧
            s.golang_title ≠ struct) →
    find_schema_loop pkg ver struct files = .error .schemaNotFound := by
  intro files
  induction files with
  | nil => intro _; rfl
  | cons f rest ih =>
    intro h
    obtain ⟨fn, text, j⟩ := f
    simp only [find_schema_loop]
    by_cases hj : pyEndsWith fn ".json" = true
    · obtain ⟨s, hs, hne⟩ := h fn text j (by simp) hj
      rw [hj, hs]
      simp only [Bool.not_true, Bool.false_eq_true, if_false]
      rw [if_pos hne]
      exact ih (fun fn2 t2 j2 hm hj2 => h fn2 t2 j2 (by simp [hm]) hj2)
    · rw [Bool.not_eq_true] at hj
      rw [hj]
      simp only [Bool.not_false, if_true]
      exact ih (fun fn2 t2 j2 hm hj2 => h fn2 t2 j2 (by simp [hm]) hj2)

theorem find_schema_loop_ok (pkg ver struct : String) :
    ∀ (files : List (String × String × Json)) (s : Schema),
    find_schema_loop pkg ver struct files = .ok s →
    s.golang_title = struct ∧
    ∃ fn text j, (fn, text, j) ∈ files ∧ pyEndsWith fn ".json" = true ∧
      mkSchema (URLBASE ++ "/" ++ pkg ++ "/" ++ ver ++ "/" ++ fn) text j = .ok s := by
  intro files
  induction files with
  | nil => intro s h; exact absurd h (by simp [find_schema_loop])
  | cons f rest ih =>
    intro s h
    obtain ⟨fn, text, j⟩ := f
    simp only [find_schema_loop] at h
    split at h
    · obtain ⟨ht, fn2, t2, j2, hm, hj2, hmk2⟩ := ih s h
      exact ⟨ht, fn2, t2, j2, by simp [hm], hj2, hmk2⟩
    · rename_i hskip
      have hj : pyEndsWith fn ".json" = true := by simpa using hskip
      split at h
      · simp at h
      · rename_i s0 hmk
        split at h
        · obtain ⟨ht, fn2, t2, j2, hm, hj2, hmk2⟩ := ih s h
          exact ⟨ht, fn2, t2, j2, by simp [hm], hj2, hmk2⟩
        · rename_i hne
          obtain rfl : s0 = s := by simpa using h
          rw [Ne, not_not] at hne
          exact ⟨hne, fn, text, j, by simp, hj, hmk⟩

/-- C3 (amended): a schema titled `T` sitting in version directory `v`
derives struct name `T ++ upper(v)`; conversely `find_schema` requires the
type name to contain a `V` immediately followed by a digit (the source's
regex `.*V[0-9]+` is unanchored, so it does NOT require the name to end in
the suffix), derives the version directory by lower-casing the last two
characters of the name, and returns the first JSON file in that directory
whose derived struct name equals the type name, failing with the
"failed to find schema" error when none matches. -/
theorem c3_naming_roundtrip :
    (∀ url text j title, pySubscript j "title" = .ok (.str title) →
       mkSchema url text j =
         .ok { url := url, text := text, json := j,
               golang_title := title ++ pyUpper (url_version url),
               python_title := camel_to_snake (title ++ pyUpper (url_version url)) }) ∧
    (∀ env pkg struct, matchVdigit struct.data = false →
       find_schema env pkg struct = .error (.invalidTypeName struct)) ∧
    (∀ env pkg struct files, matchVdigit struct.data = true →
       env pkg (pyLower (lastTwo struct)) = some files →
       (∀ fn text j, (fn, text, j) ∈ files → pyEndsWith fn ".json" = true →
          ∃ s, mkSchema (URLBASE ++ "/" ++ pkg ++ "/" ++ pyLower (lastTwo struct) ++ "/" ++ fn)
                 text j = .ok s ∧ s.golang_title ≠ struct) →
       find_schema env pkg struct = .error .schemaNotFound) ∧
    (∀ env pkg struct files s, matchVdigit struct.data = true →
       env pkg (pyLower (lastTwo struct)) = some files →
       find_schema env pkg struct = .ok s →
       s.golang_title = struct ∧
       ∃ fn text j, (fn, text, j) ∈ files ∧ pyEndsWith fn ".json" = true ∧
         mkSchema (URLBASE ++ "/" ++ pkg ++ "/" ++ pyLower (lastTwo struct) ++ "/" ++ fn)
           text j = .ok s) := by
  refine ⟨?_, ?_, ?_, ?_⟩
  · intro url text j title ht
    unfold mkSchema
    rw [ht]
  · intro env pkg struct hm
    unfold find_schema
    rw [hm]
    rfl
  · intro env pkg struct files hm henv h
    unfold find_schema
    rw [hm, henv]
    simp only [Bool.not_true, Bool.false_eq_true, if_false]
    exact find_schema_loop_not_found pkg (pyLower (lastTwo struct)) struct files h
  · intro env pkg struct files s hm henv h
    unfold find_schema at h
    rw [hm, henv] at h
    simp only [Bool.not_true, Bool.false_eq_true, if_false] at h
    exact find_schema_loop_ok pkg (pyLower (lastTwo struct)) struct files s h

def envC3 : Env := fun pkg ver =>
  if pkg = "expconf" ∧ ver = "br" then
    some [("foo.json", "x", .obj [("title", .str "FooV1")])]
  else none

/-- C3 counterexample: `find_schema` succeeds on the type name `FooV1BR`,
which does not end in a version suffix `V<digits>` (its last character is
`R`, not a digit): the unanchored regex check passes because `V1` occurs in
the middle, the version directory is the lower-cased `br`, and a schema
titled `FooV1` there matches.  This refutes "requires it to end in a version
suffix V<digits> (failing otherwise)". -/
theorem c3_counterexample :
    find_schema envC3 "expconf" "FooV1BR" =
      .ok { url := "http://determined.ai/schemas/expconf/br/foo.json",
            text := "x", json := .obj [("title", .str "FooV1")],
            golang_title := "FooV1BR",
            python_title := camel_to_snake "FooV1BR" } ∧
    "FooV1BR".data.getLast? = some 'R' ∧ 'R'.isDigit = false :=
  ⟨rfl, rfl, rfl⟩

def envC3v3 : Env := fun pkg ver =>
  if pkg = "expconf" ∧ ver = "v3" then
    some [("foo.json", "x", .obj [("title", .str "Foo")])]
  else none

def sFooV3 : Schema :=
  { url := "http://determined.ai/schemas/expconf/v3/foo.json",
    text := "x", json := .obj [("title", .str "Foo")],
    golang_title := "FooV3", python_title := camel_to_snake "FooV3" }

/-- Witness for C3: the full naming round trip at title `Foo`, directory
`v3`, type name `FooV3`, plus the rejection of a name with no V-digit
occurrence. -/
theorem c3_witness :
    (mkSchema "http://determined.ai/schemas/expconf/v3/foo.json" "x"
        (.obj [("title", .str "Foo")]) =
      .ok { url := "http://determined.ai/schemas/expconf/v3/foo.json",
            text := "x", json := .obj [("title", .str "Foo")],
            golang_title := "Foo" ++
              pyUpper (url_version "http://determined.ai/schemas/expconf/v3/foo.json"),
            python_title := camel_to_snake ("Foo" ++
              pyUpper (url_version "http://determined.ai/schemas/expconf/v3/foo.json")) }) ∧
    pyUpper (url_version "http://determined.ai/schemas/expconf/v3/foo.json") = "V3" ∧
    find_schema envC3v3 "expconf" "Foo" = .error (.invalidTypeName "Foo") ∧
    (sFooV3.golang_title = "FooV3" ∧
     ∃ fn text j, (fn, text, j) ∈ [("foo.json", "x",
         Json.obj [("title", Json.str "Foo")])] ∧ pyEndsWith fn ".json" = true ∧
       mkSchema ("http://determined.ai/schemas" ++ "/" ++ "expconf" ++ "/" ++
           pyLower (lastTwo "FooV3") ++ "/" ++ fn) "x" j = .ok sFooV3) := by
  refine ⟨c3_naming_roundtrip.1 _ "x" _ "Foo" rfl, rfl,
          c3_naming_roundtrip.2.1 envC3v3 "expconf" "Foo" rfl, ?_⟩
  have h := c3_naming_roundtrip.2.2.2 envC3v3 "expconf" "FooV3"
    [("foo.json", "x", Json.obj [("title", Json.str "Foo")])] sFooV3 rfl rfl rfl
  obtain ⟨h1, fn, text, j, hm, hj, hmk⟩ := h
  refine ⟨h1, fn, text, j, hm, hj, ?_⟩
  have htext : text = "x" := by
    simp at hm
    exact hm.2.1
  rw [← htext]
  exact hmk

end Gen

namespace Gen

/-! ## C6 -/

/-- The `FieldSpec` a body line contributes in the `fields` state (`none` for
exit, skipped, union, and unclassifiable lines). -/
def body_field_of (line : String) : Option FieldSpec :=
  if pystrip line = "\x7d" ∨ pystrip line = "" ∨ pyStartsWith line "\t//" = true then none
  else if (match_union_line line).isSome then none
  else match_field_line line

/-- The `UnionSpec` a body line contributes in the `fields` state. -/
def body_union_of (line : String) : Option UnionSpec :=
  if pystrip line = "\x7d" ∨ pystrip line = "" ∨ pyStartsWith line "\t//" = true then none
  else match_union_line line

/-- A body line the `fields` state consumes without exiting or failing: not
the closing delimiter, and blank, tab-comment, or one of the two field
shapes. -/
def body_good (line : String) : Bool :=
  !(pystrip line == "\x7d") &&
  (pystrip line == "" || pyStartsWith line "\t//" ||
   (match_union_line line).isSome || (match_field_line line).isSome)

theorem find_struct_pre_phase (name : String) :
    ∀ (pre : List String) (rest : List String) (n : Nat) (fs : List FieldSpec)
      (us : List UnionSpec),
    (∀ l ∈ pre, opens_struct name l = false) →
    find_struct_loop name false n fs us (pre ++ rest) =
      find_struct_loop name false (n + pre.length) fs us rest := by
  intro pre
  induction pre with
  | nil => intro rest n fs us _; simp
  | cons l tl ih =>
    intro rest n fs us h
    have hl : opens_struct name l = false := h l (by simp)
    simp only [List.cons_append, find_struct_loop, hl, Bool.false_eq_true, if_false]
    simp only [List.append_eq]
    rw [ih rest (n + 1) fs us (fun l2 hm => h l2 (by simp [hm]))]
    congr 1
    simp [List.length_cons]
    omega

theorem find_struct_body_phase (name : String) :
    ∀ (body : List String) (rest : List String) (n : Nat) (fs : List FieldSpec)
      (us : List UnionSpec),
    (∀ l ∈ body, body_good l = true) →
    find_struct_loop name true n fs us (body ++ rest) =
      find_struct_loop name true (n + body.length)
        (fs ++ body.filterMap body_field_of) (us ++ body.filterMap body_union_of) rest := by
  intro body
  induction body with
  | nil => intro rest n fs us _; simp
  | cons l tl ih =>
    intro rest n fs us h
    have hl : body_good l = true := h l (by simp)
    have htl : ∀ l2 ∈ tl, body_good l2 = true := fun l2 hm => h l2 (by simp [hm])
    unfold body_good at hl
    rw [Bool.and_eq_true] at hl
    have hclose : ¬ (pystrip l = "\x7d") := by
      intro hc
      rw [← beq_iff_eq] at hc
      rw [hc] at hl
      simp at hl
    simp only [List.cons_append, find_struct_loop]
    rw [if_neg hclose]
    by_cases hblank : pystrip l = ""
    · have hf : body_field_of l = none := by
        unfold body_field_of
        rw [if_pos (by exact Or.inr (Or.inl hblank))]
      have hu : body_union_of l = none := by
        unfold body_union_of
        rw [if_pos (by exact Or.inr (Or.inl hblank))]
      rw [if_pos hblank]
      simp only [List.append_eq]
      rw [ih rest (n + 1) fs us htl]
      simp only [List.filterMap_cons, hf, hu, List.length_cons]
      congr 1
      omega
    · rw [if_neg hblank]
      by_cases hcom : pyStartsWith l "\t//" = true
      · have hf : body_field_of l = none := by
          unfold body_field_of
          rw [if_pos (by exact Or.inr (Or.inr hcom))]
        have hu : body_union_of l = none := by
          unfold body_union_of
          rw [if_pos (by exact Or.inr (Or.inr hcom))]
        rw [if_pos hcom]
        simp only [List.append_eq]
        rw [ih rest (n + 1) fs us htl]
        simp only [List.filterMap_cons, hf, hu, List.length_cons]
        congr 1
        omega
      · rw [if_neg hcom]
        have hnotskip : ¬ (pystrip l = "\x7d" ∨ pystrip l = "" ∨ pyStartsWith l "\t//" = true) := by
          push_neg
          exact ⟨hclose, hblank, by simpa using hcom⟩
        cases hun : match_union_line l with
        | some fu =>
          have hf : body_field_of l = none := by
            unfold body_field_of
            rw [if_neg hnotskip, if_pos (by rw [hun]; rfl)]
          have hu : body_union_of l = some fu := by
            unfold body_union_of
            rw [if_neg hnotskip, hun]
          simp only [List.append_eq]
          rw [ih rest (n + 1) fs (us ++ [fu]) htl]
          simp only [List.filterMap_cons, hf, hu, List.length_cons, List.append_assoc,
            List.singleton_append]
          congr 1
          omega
        | none =>
          cases hfl : match_field_line l with
          | some ftt =>
            have hf : body_field_of l = some ftt := by
              unfold body_field_of
              rw [if_neg hnotskip, if_neg (by rw [hun]; simp), hfl]
            have hu : body_union_of l = none := by
              unfold body_union_of
              rw [if_neg hnotskip, hun]
            simp only [List.append_eq]
            rw [ih rest (n + 1) (fs ++ [ftt]) us htl]
            simp only [List.filterMap_cons, hf, hu, List.length_cons, List.append_assoc,
              List.singleton_append]
            congr 1
            omega
          | none =>
            exfalso
            have : (match_union_line l).isSome ∨ (match_field_line l).isSome := by
              rcases Bool.or_eq_true_iff.mp hl.2 with h1 | h2
              · rcases Bool.or_eq_true_iff.mp h1 with h3 | h4
                · rcases Bool.or_eq_true_iff.mp h3 with h5 | h6
                  · exact absurd (by simpa using h5) hblank
                  · exact absurd h6 hcom
                · exact Or.inl (by simpa using h4)
              · exact Or.inr (by simpa using h2)
            rcases this with h1 | h2
            · rw [hun] at h1; simp at h1
            · rw [hfl] at h2; simp at h2

end Gen

namespace Gen

/-- C6 (amended): `find_struct` ignores everything before the line opening
`type <name> struct` and fails with the not-found error when no line opens
the definition or when the definition is never closed; inside the body it
skips blank lines and comment lines that begin with a tab followed by `//`,
classifies every other line as a union-marker field (checked first) or a
tagged plain field in declaration order, raises the fatal cannot-classify
error (with the line's index and text) on the first body line matching
neither shape, and returns the accumulated descriptor exactly at the first
line whose stripped text is the closing `}`. -/
theorem c6_find_struct_state_machine :
    (∀ text name, (∀ l ∈ readlines text, opens_struct name l = false) →
       find_struct text name = .error (.structNotFound name)) ∧
    (∀ text name pre opener body,
       readlines text = pre ++ opener :: body →
       (∀ l ∈ pre, opens_struct name l = false) →
       opens_struct name opener = true →
       (∀ l ∈ body, body_good l = true) →
       find_struct text name = .error (.structNotFound name)) ∧
    (∀ text name pre opener body closer rest,
       readlines text = pre ++ opener :: (body ++ closer :: rest) →
       (∀ l ∈ pre, opens_struct name l = false) →
       opens_struct name opener = true →
       (∀ l ∈ body, body_good l = true) →
       pystrip closer = "\x7d" →
       find_struct text name =
         .ok (body.filterMap body_field_of, body.filterMap body_union_of)) ∧
    (∀ text name pre opener body bad rest,
       readlines text = pre ++ opener :: (body ++ bad :: rest) →
       (∀ l ∈ pre, opens_struct name l = false) →
       opens_struct name opener = true →
       (∀ l ∈ body, body_good l = true) →
       pystrip bad ≠ "\x7d" → pystrip bad ≠ "" → pyStartsWith bad "\t//" = false →
       match_union_line bad = none → match_field_line bad = none →
       find_struct text name =
         .error (.cannotClassify (pre.length + 1 + body.length) bad)) := by
  refine ⟨?_, ?_, ?_, ?_⟩
  · intro text name h
    unfold find_struct
    have hp := find_struct_pre_phase name (readlines text) [] 0 [] [] h
    rw [List.append_nil] at hp
    rw [hp]
    rfl
  · intro text name pre opener body htext hpre hop hbody
    unfold find_struct
    rw [htext]
    rw [find_struct_pre_phase name pre (opener :: body) 0 [] [] hpre]
    simp only [find_struct_loop, hop, if_true]
    have hb := find_struct_body_phase name body [] (0 + pre.length + 1) [] [] hbody
    rw [List.append_nil] at hb
    rw [hb]
    rfl
  · intro text name pre opener body closer rest htext hpre hop hbody hcl
    unfold find_struct
    rw [htext]
    rw [find_struct_pre_phase name pre (opener :: (body ++ closer :: rest)) 0 [] [] hpre]
    simp only [find_struct_loop, hop, if_true]
    rw [find_struct_body_phase name body (closer :: rest) (0 + pre.length + 1) [] [] hbody]
    simp only [find_struct_loop, hcl, if_pos, List.nil_append]
  · intro text name pre opener body bad rest htext hpre hop hbody hcl hbl hcm hun hfl
    unfold find_struct
    rw [htext]
    rw [find_struct_pre_phase name pre (opener :: (body ++ bad :: rest)) 0 [] [] hpre]
    simp only [find_struct_loop, hop, if_true]
    rw [find_struct_body_phase name body (bad :: rest) (0 + pre.length + 1) [] [] hbody]
    simp only [find_struct_loop, hun, hfl]
    rw [if_neg hcl, if_neg hbl, if_neg (by simp [hcm])]
    have harith : 0 + pre.length + 1 + body.length = pre.length + 1 + body.length := by
      omega
    rw [harith]

def textC6 : String :=
  "type FooV1 struct \x7b\n    // a comment\n\x7d\n"

/-- C6 counterexample: a comment-only body line indented with spaces instead
of a tab is NOT skipped — `find_struct` raises the fatal cannot-classify
error on it — refuting the claim's "skips blank lines and comment-only
lines" for comment lines that do not start with a tab. -/
theorem c6_counterexample :
    pystrip "    // a comment\n" = "// a comment" ∧
    pyStartsWith (pystrip "    // a comment\n") "//" = true ∧
    find_struct textC6 "FooV1" =
      .error (.cannotClassify 1 "    // a comment\n") :=
  ⟨rfl, rfl, rfl⟩

def textC6w : String :=
  "package x\n" ++
  "type AV1 struct \x7b\n" ++
  "\n" ++
  "\t// a tab comment\n" ++
  "\tName string `json:\"name\"`\n" ++
  "\tU *TV1 `union:\"t,u\"`\n" ++
  "\x7d\n" ++
  "trailing\n"

/-- Witness for C6: the success conjunct on a definition whose body holds a
blank line, a tab comment, a tagged field and a union field, and the
not-found conjunct on a file without the definition. -/
theorem c6_witness :
    find_struct textC6w "AV1" =
      .ok ([("Name", "string", "name")], [("U", "*TV1")]) ∧
    find_struct "package x\n" "AV1" = .error (.structNotFound "AV1") := by
  constructor
  · have h := c6_find_struct_state_machine.2.2.1 textC6w "AV1" ["package x\n"]
      "type AV1 struct \x7b\n"
      ["\n", "\t// a tab comment\n", "\tName string `json:\"name\"`\n",
       "\tU *TV1 `union:\"t,u\"`\n"]
      "\x7d\n" ["trailing\n"] rfl (by decide) rfl (by decide) rfl
    exact h.trans (by rfl)
  · exact c6_find_struct_state_machine.1 "package x\n" "AV1" (by decide)

end Gen

namespace Gen

/-! ## C4 -/

instance : IsTotal (String × String) memberLe := ⟨by
  intro a b
  rcases lt_trichotomy a.1 b.1 with h | h | h
  · exact Or.inl (Or.inl h)
  · rcases le_total a.2 b.2 with h2 | h2
    · exact Or.inl (Or.inr ⟨h, h2⟩)
    · exact Or.inr (Or.inr ⟨h.symm, h2⟩)
  · exact Or.inr (Or.inl h)⟩

instance : IsTrans (String × String) memberLe := ⟨by
  intro a b c hab hbc
  rcases hab with h1 | ⟨h1, h2⟩
  · rcases hbc with h3 | ⟨h3, h4⟩
    · exact Or.inl (h1.trans h3)
    · exact Or.inl (lt_of_lt_of_le h1 (le_of_eq h3))
  · rcases hbc with h3 | ⟨h3, h4⟩
    · exact Or.inl (lt_of_le_of_lt (le_of_eq h1) h3)
    · exact Or.inr ⟨h1.trans h3, h2.trans h4⟩⟩

theorem dget_isSome_iff (f : String) :
    ∀ m : List (String × String), (dget m f).isSome = true ↔ f ∈ m.map Prod.fst := by
  intro m
  induction m with
  | nil => simp [dget]
  | cons kv rest ih =>
    obtain ⟨k, v⟩ := kv
    by_cases hk : k = f
    · simp [dget, hk]
    · simp only [dget, hk, if_false, List.map_cons, List.mem_cons]
      rw [ih]
      constructor
      · exact fun h => Or.inr h
      · rintro (h | h)
        · exact absurd h.symm hk
        · exact h

theorem dedup_all_eq {α : Type} [DecidableEq α] (l : List α)
    (h : l.dedup.length = 1) : ∀ a ∈ l, ∀ b ∈ l, a = b := by
  obtain ⟨x, hx⟩ : ∃ x, l.dedup = [x] := by
    cases hd : l.dedup with
    | nil => rw [hd] at h; simp at h
    | cons y ys =>
      cases ys with
      | nil => exact ⟨y, rfl⟩
      | cons z zs => rw [hd] at h; simp at h
  intro a ha b hb
  have ha2 : a ∈ l.dedup := List.mem_dedup.mpr ha
  have hb2 : b ∈ l.dedup := List.mem_dedup.mpr hb
  rw [hx] at ha2 hb2
  simp only [List.mem_singleton] at ha2 hb2
  rw [ha2, hb2]

theorem variants_loop_append (env : Env) (pkg text : String) :
    ∀ (pre rest : List String) (per0 : List (List (String × String))),
    variants_loop env pkg text pre = .ok per0 →
    variants_loop env pkg text (pre ++ rest) =
      (variants_loop env pkg text rest).map (fun ms => per0 ++ ms) := by
  intro pre
  induction pre with
  | nil =>
    intro rest per0 h
    obtain rfl : ([] : List (List (String × String))) = per0 := by simpa [variants_loop] using h
    cases hres : variants_loop env pkg text rest <;> simp [Except.map, hres]
  | cons s tl ih =>
    intro rest per0 h
    simp only [variants_loop, List.cons_append] at h ⊢
    cases hv : variant_members env pkg text s with
    | error e => rw [hv] at h; simp at h
    | ok m =>
      rw [hv] at h
      cases htl : variants_loop env pkg text tl with
      | error e => rw [htl] at h; simp at h
      | ok ms =>
        rw [htl] at h
        obtain rfl : m :: ms = per0 := by simpa using h
        simp only [List.append_eq]
        rw [ih rest ms htl]
        cases hres : variants_loop env pkg text rest <;> simp [Except.map, hres]

theorem gucm_eq (env : Env) (pkg text : String) (uts : List String)
    (m0 : List (String × String)) (rest : List (List (String × String)))
    (hloop : variants_loop env pkg text uts = .ok (m0 :: rest)) :
    get_union_common_members env pkg text uts =
      (match ((m0.map Prod.fst).filter
            (fun f => rest.all (fun m => (dget m f).isSome))).find?
          (fun f => ((m0 :: rest).filterMap (fun m => dget m f)).dedup.length != 1) with
       | some f =>
         .error (.typeMismatch f
           (((m0 :: rest).filterMap (fun m => dget m f)).dedup) uts)
       | none =>
         .ok (List.insertionSort memberLe
           (((m0.map Prod.fst).filter
               (fun f => rest.all (fun m => (dget m f).isSome))).filterMap
             (fun f => (dget m0 f).map (fun t => (f, t)))))) := by
  unfold get_union_common_members
  rw [hloop]

/-- C4: union common-member resolution fails fast on a nested union; when
every variant resolves, it returns the fields shared by all variants — with
the type every variant agrees on, sorted by field name — and fails with a
type-mismatch error carrying all observed types and the variant list as soon
as some shared field's effective types disagree. -/
theorem c4_union_common_members :
    (∀ env pkg text pre s post per0 sch spec union,
       variants_loop env pkg text pre = .ok per0 →
       find_schema env pkg s = .ok sch →
       find_struct text s = .ok (spec, union) →
       union ≠ [] →
       get_union_common_members env pkg text (pre ++ s :: post) =
         .error (.nestedUnion s)) ∧
    (∀ env pkg text uts per, uts ≠ [] →
       variants_loop env pkg text uts = .ok per →
       ((∀ f, (∀ m ∈ per, (dget m f).isSome = true) →
           (per.filterMap (fun m => dget m f)).dedup.length = 1) →
         ∃ l, get_union_common_members env pkg text uts = .ok l ∧
           l.Pairwise (fun a b : String × String => a.1 ≤ b.1) ∧
           (∀ p ∈ l, ∀ m ∈ per, dget m p.1 = some p.2) ∧
           (∀ f, (∀ m ∈ per, (dget m f).isSome = true) ↔ ∃ t, (f, t) ∈ l)) ∧
       ((∃ f, (∀ m ∈ per, (dget m f).isSome = true) ∧
           (per.filterMap (fun m => dget m f)).dedup.length ≠ 1) →
         ∃ f tys, get_union_common_members env pkg text uts =
             .error (.typeMismatch f tys uts) ∧
           (∀ m ∈ per, (dget m f).isSome = true) ∧
           tys = (per.filterMap (fun m => dget m f)).dedup ∧ 2 ≤ tys.length)) := by
  constructor
  · intro env pkg text pre s post per0 sch spec union hpre hsch hfind hne
    have hv : variant_members env pkg text s = .error (.nestedUnion s) := by
      simp only [variant_members, hsch, hfind]
      rw [if_pos (List.length_pos.mpr hne)]
    have hloop : variants_loop env pkg text (pre ++ s :: post) =
        .error (.nestedUnion s) := by
      rw [variants_loop_append env pkg text pre (s :: post) per0 hpre]
      simp only [variants_loop, hv]
      rfl
    unfold get_union_common_members
    rw [hloop]
  · intro env pkg text uts per hne hloop
    obtain ⟨m0, rest, rfl⟩ : ∃ m0 rest, per = m0 :: rest := by
      cases uts with
      | nil => exact absurd rfl hne
      | cons s tl =>
        simp only [variants_loop] at hloop
        cases hv : variant_members env pkg text s with
        | error e => rw [hv] at hloop; simp at hloop
        | ok m =>
          rw [hv] at hloop
          cases htl : variants_loop env pkg text tl with
          | error e => rw [htl] at hloop; simp at hloop
          | ok ms =>
            rw [htl] at hloop
            obtain rfl : m :: ms = per := by simpa using hloop
            exact ⟨m, ms, rfl⟩
    have hmem_common : ∀ f,
        f ∈ (m0.map Prod.fst).filter
          (fun f => rest.all (fun m => (dget m f).isSome)) ↔
        (∀ m ∈ m0 :: rest, (dget m f).isSome = true) := by
      intro f
      rw [List.mem_filter]
      constructor
      · rintro ⟨h1, h2⟩ m hm
        rcases List.mem_cons.mp hm with heq | hm2
        · rw [heq]
          exact (dget_isSome_iff f m0).mpr h1
        · exact List.all_eq_true.mp h2 m hm2
      · intro h
        refine ⟨(dget_isSome_iff f m0).mp (h m0 (by simp)), ?_⟩
        exact List.all_eq_true.mpr (fun m hm => h m (by simp [hm]))
    constructor
    · intro hagree
      have hfind : ((m0.map Prod.fst).filter
            (fun f => rest.all (fun m => (dget m f).isSome))).find?
          (fun f => ((m0 :: rest).filterMap (fun m => dget m f)).dedup.length != 1) =
          none := by
        rw [List.find?_eq_none]
        intro f hf
        have hall := (hmem_common f).mp hf
        have h1 := hagree f hall
        simp [h1]
      refine ⟨List.insertionSort memberLe
        (((m0.map Prod.fst).filter
            (fun f => rest.all (fun m => (dget m f).isSome))).filterMap
          (fun f => (dget m0 f).map (fun t => (f, t)))), ?_, ?_, ?_, ?_⟩
      · rw [gucm_eq env pkg text uts m0 rest hloop, hfind]
      · have hs := List.sorted_insertionSort memberLe
          (((m0.map Prod.fst).filter
              (fun f => rest.all (fun m => (dget m f).isSome))).filterMap
            (fun f => (dget m0 f).map (fun t => (f, t))))
        exact hs.imp (fun h => h.elim le_of_lt (fun hh => le_of_eq hh.1))
      · intro p hp m hm
        obtain ⟨f, t⟩ := p
        rw [List.mem_insertionSort] at hp
        rw [List.mem_filterMap] at hp
        obtain ⟨f0, hf0, hmap⟩ := hp
        cases hd0 : dget m0 f0 with
        | none => rw [hd0] at hmap; simp at hmap
        | some t0 =>
          rw [hd0] at hmap
          simp at hmap
          obtain ⟨rfl, rfl⟩ := hmap
          have hall := (hmem_common f0).mp hf0
          have hsome : (dget m f0).isSome = true := hall m hm
          obtain ⟨tm, htm⟩ := Option.isSome_iff_exists.mp hsome
          have heq : tm = t0 := by
            have h1 := hagree f0 hall
            refine dedup_all_eq _ h1 tm ?_ t0 ?_
            · rw [List.mem_filterMap]
              exact ⟨m, hm, htm⟩
            · rw [List.mem_filterMap]
              exact ⟨m0, by simp, hd0⟩
          rw [htm, heq]
      · intro f
        constructor
        · intro hall
          have hf : f ∈ (m0.map Prod.fst).filter
              (fun f => rest.all (fun m => (dget m f).isSome)) :=
            (hmem_common f).mpr hall
          obtain ⟨t, ht⟩ := Option.isSome_iff_exists.mp (hall m0 (by simp))
          refine ⟨t, ?_⟩
          rw [List.mem_insertionSort, List.mem_filterMap]
          exact ⟨f, hf, by rw [ht]; rfl⟩
        · rintro ⟨t, ht⟩
          rw [List.mem_insertionSort, List.mem_filterMap] at ht
          obtain ⟨f0, hf0, hmap⟩ := ht
          cases hd0 : dget m0 f0 with
          | none => rw [hd0] at hmap; simp at hmap
          | some t0 =>
            rw [hd0] at hmap
            simp at hmap
            obtain ⟨rfl, rfl⟩ := hmap
            exact (hmem_common f0).mp hf0
    · rintro ⟨f, hall, hbad⟩
      have hf : f ∈ (m0.map Prod.fst).filter
          (fun f => rest.all (fun m => (dget m f).isSome)) :=
        (hmem_common f).mpr hall
      have hsome : (((m0.map Prod.fst).filter
            (fun f => rest.all (fun m => (dget m f).isSome))).find?
          (fun f => ((m0 :: rest).filterMap (fun m => dget m f)).dedup.length != 1)).isSome = true := by
        rw [List.find?_isSome]
        exact ⟨f, hf, by simpa using hbad⟩
      obtain ⟨f0, hf0⟩ := Option.isSome_iff_exists.mp hsome
      have hp0 := List.find?_some hf0
      have hm0 : f0 ∈ (m0.map Prod.fst).filter
          (fun f => rest.all (fun m => (dget m f).isSome)) :=
        List.mem_of_find?_eq_some hf0
      have hall0 := (hmem_common f0).mp hm0
      refine ⟨f0, ((m0 :: rest).filterMap (fun m => dget m f0)).dedup, ?_, hall0, rfl, ?_⟩
      · rw [gucm_eq env pkg text uts m0 rest hloop, hf0]
      · have hne1 : ((m0 :: rest).filterMap (fun m => dget m f0)).dedup.length ≠ 1 := by
          simpa using hp0
        have hpos : 0 < ((m0 :: rest).filterMap (fun m => dget m f0)).dedup.length := by
          obtain ⟨t0, ht0⟩ := Option.isSome_iff_exists.mp (hall0 m0 (by simp))
          have : t0 ∈ ((m0 :: rest).filterMap (fun m => dget m f0)).dedup := by
            rw [List.mem_dedup, List.mem_filterMap]
            exact ⟨m0, by simp, ht0⟩
          exact List.length_pos.mpr (List.ne_nil_of_mem this)
        omega

end Gen

namespace Gen

def jsonC4A : Json :=
  .obj [("title", .str "A"),
        ("properties", .obj [("name", .obj []), ("x", .obj [])])]

def jsonC4B : Json :=
  .obj [("title", .str "B"),
        ("properties", .obj [("name", .obj []), ("y", .obj [])])]

def jsonC4D : Json := .obj [("title", .str "D"), ("properties", .obj [])]

def envC4 : Env := fun pkg ver =>
  if pkg = "expconf" ∧ ver = "v1" then
    some [("a.json", "ta", jsonC4A), ("b.json", "tb", jsonC4B),
          ("d.json", "td", jsonC4D)]
  else none

def textC4 : String :=
  "type AV1 struct \x7b\n" ++
  "\tName string `json:\"name\"`\n" ++
  "\tX int `json:\"x\"`\n" ++
  "\x7d\n" ++
  "type BV1 struct \x7b\n" ++
  "\tName string `json:\"name\"`\n" ++
  "\tY int `json:\"y\"`\n" ++
  "\x7d\n"

def textC4m : String :=
  "type AV1 struct \x7b\n" ++
  "\tName string `json:\"name\"`\n" ++
  "\x7d\n" ++
  "type BV1 struct \x7b\n" ++
  "\tName int `json:\"name\"`\n" ++
  "\x7d\n"

def textC4n : String :=
  "type DV1 struct \x7b\n" ++
  "\tA *AV1 `union:\"type,a\"`\n" ++
  "\x7d\n"

/-- Witness for C4: scenario C (variants `A\x7bName string, X int\x7d` and
`B\x7bName string, Y int\x7d` give exactly `Name: string`, sorted), a
type-mismatch failure when `Name` differs, and the nested-union fail-fast. -/
theorem c4_witness :
    (∃ l, get_union_common_members envC4 "expconf" textC4 ["AV1", "BV1"] = .ok l ∧
       l.Pairwise (fun a b : String × String => a.1 ≤ b.1) ∧
       (∀ p ∈ l, ∀ m ∈ [[("Name", "string"), ("X", "int")],
                        [("Name", "string"), ("Y", "int")]], dget m p.1 = some p.2) ∧
       (∀ f, (∀ m ∈ [[("Name", "string"), ("X", "int")],
                     [("Name", "string"), ("Y", "int")]], (dget m f).isSome = true) ↔
          ∃ t, (f, t) ∈ l)) ∧
    get_union_common_members envC4 "expconf" textC4 ["AV1", "BV1"] =
      .ok [("Name", "string")] ∧
    (∃ f tys, get_union_common_members envC4 "expconf" textC4m ["AV1", "BV1"] =
        .error (.typeMismatch f tys ["AV1", "BV1"]) ∧
      (∀ m ∈ [[("Name", "string")], [("Name", "int")]], (dget m f).isSome = true) ∧
      tys = ([[("Name", "string")], [("Name", "int")]].filterMap
        (fun m => dget m f)).dedup ∧ 2 ≤ tys.length) ∧
    get_union_common_members envC4 "expconf" textC4n ([] ++ "DV1" :: []) =
      .error (.nestedUnion "DV1") := by
  refine ⟨?_, rfl, ?_, ?_⟩
  · refine ((c4_union_common_members.2 envC4 "expconf" textC4 ["AV1", "BV1"]
      [[("Name", "string"), ("X", "int")], [("Name", "string"), ("Y", "int")]]
      (by simp) rfl).1 ?_)
    intro f hall
    have h1 : f ∈ ([("Name", "string"), ("X", "int")] : List (String × String)).map Prod.fst :=
      (dget_isSome_iff f [("Name", "string"), ("X", "int")]).mp (hall _ (by simp))
    have h2 : f ∈ ([("Name", "string"), ("Y", "int")] : List (String × String)).map Prod.fst :=
      (dget_isSome_iff f [("Name", "string"), ("Y", "int")]).mp (hall _ (by simp))
    simp only [List.map_cons, List.map_nil, List.mem_cons, List.not_mem_nil,
      or_false] at h1 h2
    rcases h1 with rfl | rfl
    · rfl
    · rcases h2 with h | h
      · exact absurd h (by decide)
      · exact absurd h (by decide)
  · exact (c4_union_common_members.2 envC4 "expconf" textC4m ["AV1", "BV1"]
      [[("Name", "string")], [("Name", "int")]] (by simp) rfl).2
      ⟨"Name", by decide, by decide⟩
  · exact c4_union_common_members.1 envC4 "expconf" textC4n [] "DV1" [] []
      { url := "http://determined.ai/schemas/expconf/v1/d.json", text := "td",
        json := jsonC4D, golang_title := "DV1",
        python_title := camel_to_snake "DV1" }
      [] [("A", "*AV1")] rfl rfl rfl (by simp)

end Gen

namespace Gen

/-! ## C5 -/

instance : IsTotal Schema schemaLe := ⟨fun a b => le_total a.url b.url⟩

instance : IsTrans Schema schemaLe := ⟨fun _ _ _ h1 h2 => le_trans h1 h2⟩

theorem mkSchema_url (url text : String) (j : Json) (s : Schema)
    (h : mkSchema url text j = .ok s) : s.url = url := by
  unfold mkSchema at h
  split at h
  · simp at h
  · obtain rfl : _ = s := by simpa using h
    rfl
  · simp at h

theorem read_schemas_loop_urls :
    ∀ (files : List RawFile) (ss : List Schema),
    read_schemas_loop files = .ok ss →
    ss.map Schema.url = files.map (fun f => mkUrl f.relpath) := by
  intro files
  induction files with
  | nil =>
    intro ss h
    obtain rfl : ([] : List Schema) = ss := by simpa [read_schemas_loop] using h
    rfl
  | cons f rest ih =>
    intro ss h
    simp only [read_schemas_loop] at h
    cases hmk : mkSchema (mkUrl f.relpath) f.text f.json with
    | error e => rw [hmk] at h; simp at h
    | ok s =>
      rw [hmk] at h
      cases hl : read_schemas_loop rest with
      | error e => rw [hl] at h; simp at h
      | ok ss0 =>
        rw [hl] at h
        obtain rfl : s :: ss0 = ss := by simpa using h
        simp only [List.map_cons]
        rw [ih ss0 hl, mkSchema_url (mkUrl f.relpath) f.text f.json s hmk]

theorem read_schemas_loop_perm :
    ∀ (f1 f2 : List RawFile), f1.Perm f2 →
    ∀ s1, read_schemas_loop f1 = .ok s1 →
    ∃ s2, read_schemas_loop f2 = .ok s2 ∧ s1.Perm s2 := by
  intro f1 f2 hp
  induction hp with
  | nil => exact fun s1 h => ⟨s1, h, List.Perm.refl _⟩
  | cons x p ih =>
    rename_i l1 l2
    intro s1 h
    simp only [read_schemas_loop] at h ⊢
    cases hmk : mkSchema (mkUrl x.relpath) x.text x.json with
    | error e => rw [hmk] at h; simp at h
    | ok s =>
      rw [hmk] at h
      cases hl : read_schemas_loop l1 with
      | error e => rw [hl] at h; simp at h
      | ok ss =>
        rw [hl] at h
        obtain rfl : s :: ss = s1 := by simpa using h
        obtain ⟨ss2, hl2, hperm⟩ := ih ss hl
        refine ⟨s :: ss2, ?_, hperm.cons s⟩
        rw [hl2]
  | swap x y l =>
    intro s1 h
    simp only [read_schemas_loop] at h ⊢
    cases hmy : mkSchema (mkUrl y.relpath) y.text y.json with
    | error e => rw [hmy] at h; simp at h
    | ok sy =>
      rw [hmy] at h
      cases hmx : mkSchema (mkUrl x.relpath) x.text x.json with
      | error e => rw [hmx] at h; simp at h
      | ok sx =>
        rw [hmx] at h
        cases hl : read_schemas_loop l with
        | error e => rw [hl] at h; simp at h
        | ok ss =>
          rw [hl] at h
          obtain rfl : sy :: sx :: ss = s1 := by simpa using h
          exact ⟨sx :: sy :: ss, rfl, List.Perm.swap sx sy ss⟩
  | trans p1 p2 ih1 ih2 =>
    intro s1 h
    obtain ⟨s2, h2, hp12⟩ := ih1 s1 h
    obtain ⟨s3, h3, hp23⟩ := ih2 s2 h2
    exact ⟨s3, h3, hp12.trans hp23⟩

theorem mkUrl_injective : Function.Injective mkUrl := by
  intro a b hab
  unfold mkUrl at hab
  have h2 := congrArg String.data hab
  rw [String.data_append, String.data_append] at h2
  exact String.ext (List.append_cancel_left h2)

theorem sorted_perm_nodup_url_eq (l1 l2 : List Schema)
    (hp : l1.Perm l2) (hs1 : l1.Sorted schemaLe) (hs2 : l2.Sorted schemaLe)
    (hnd : (l1.map Schema.url).Nodup) : l1 = l2 := by
  haveI : IsAntisymm Schema (fun a b : Schema => a.url < b.url) :=
    ⟨fun _ _ h1 h2 => absurd h2 (lt_asymm h1)⟩
  have hnd2 : (l2.map Schema.url).Nodup := (hp.map Schema.url).nodup_iff.mp hnd
  have hne1 : List.Pairwise (fun a b : Schema => a.url ≠ b.url) l1 :=
    List.pairwise_map.mp hnd
  have hne2 : List.Pairwise (fun a b : Schema => a.url ≠ b.url) l2 :=
    List.pairwise_map.mp hnd2
  have hlt1 : l1.Sorted (fun a b : Schema => a.url < b.url) :=
    (hs1.and hne1).imp (fun h => lt_of_le_of_ne h.1 h.2)
  have hlt2 : l2.Sorted (fun a b : Schema => a.url < b.url) :=
    (hs2.and hne2).imp (fun h => lt_of_le_of_ne h.1 h.2)
  exact List.eq_of_perm_of_sorted hp hlt1 hlt2

/-- C5: permuting the order in which the schema files are listed does not
change the loaded (URL-sorted) schema list, hence neither aggregate module;
and union common members are always sorted by field name. -/
theorem c5_determinism :
    (∀ f1 f2 s1, f1.Perm f2 →
       (f1.map RawFile.relpath).Nodup →
       read_schemas f1 = .ok s1 →
       read_schemas f2 = .ok s1 ∧
       Except.map gen_python (read_schemas f2) =
         Except.map gen_python (read_schemas f1) ∧
       Except.map gen_go_schemas_package (read_schemas f2) =
         Except.map gen_go_schemas_package (read_schemas f1)) ∧
    (∀ env pkg text uts l, get_union_common_members env pkg text uts = .ok l →
       l.Pairwise (fun a b : String × String => a.1 ≤ b.1)) := by
  constructor
  · intro f1 f2 s1 hp hnd h
    have hmain : read_schemas f2 = .ok s1 := by
      unfold read_schemas at h ⊢
      cases hl1 : read_schemas_loop f1 with
      | error e => rw [hl1] at h; simp at h
      | ok ss1 =>
        rw [hl1] at h
        obtain rfl : List.insertionSort schemaLe ss1 = s1 := by simpa using h
        obtain ⟨ss2, hl2, hperm⟩ := read_schemas_loop_perm f1 f2 hp ss1 hl1
        rw [hl2]
        have hnd1 : (ss1.map Schema.url).Nodup := by
          rw [read_schemas_loop_urls f1 ss1 hl1]
          have hc : f1.map (fun f => mkUrl f.relpath) =
              (f1.map RawFile.relpath).map mkUrl := by
            rw [List.map_map]
            rfl
          rw [hc]
          exact hnd.map mkUrl_injective
        have hnds : ((List.insertionSort schemaLe ss1).map Schema.url).Nodup :=
          ((List.perm_insertionSort schemaLe ss1).map Schema.url).nodup_iff.mpr hnd1
        have hfinal : List.insertionSort schemaLe ss2 =
            List.insertionSort schemaLe ss1 := by
          refine sorted_perm_nodup_url_eq _ _ ?_ ?_ ?_ ?_
          · exact ((List.perm_insertionSort schemaLe ss2).trans hperm.symm).trans
              (List.perm_insertionSort schemaLe ss1).symm
          · exact List.sorted_insertionSort schemaLe ss2
          · exact List.sorted_insertionSort schemaLe ss1
          · exact (((List.perm_insertionSort schemaLe ss2).trans hperm.symm).trans
              (List.perm_insertionSort schemaLe ss1).symm).map Schema.url |>.nodup_iff
              |>.mpr hnds
        show Except.ok (List.insertionSort schemaLe ss2) =
          Except.ok (List.insertionSort schemaLe ss1)
        rw [hfinal]
    refine ⟨hmain, ?_, ?_⟩
    · rw [hmain, h]
    · rw [hmain, h]
  · intro env pkg text uts l h
    cases hloop : variants_loop env pkg text uts with
    | error e =>
      unfold get_union_common_members at h
      rw [hloop] at h
      simp at h
    | ok per =>
      cases per with
      | nil =>
        unfold get_union_common_members at h
        rw [hloop] at h
        simp at h
      | cons m0 rest =>
        rw [gucm_eq env pkg text uts m0 rest hloop] at h
        split at h
        · simp at h
        · obtain rfl : _ = l := by simpa using h
          have hs := List.sorted_insertionSort memberLe
            (((m0.map Prod.fst).filter
                (fun f => rest.all (fun m => (dget m f).isSome))).filterMap
              (fun f => (dget m0 f).map (fun t => (f, t))))
          exact hs.imp (fun h2 => h2.elim le_of_lt (fun hh => le_of_eq hh.1))

def rawA : RawFile := { relpath := "expconf/v1/a.json", text := "ta", json := .obj [("title", .str "A")] }

def rawB : RawFile := { relpath := "expconf/v1/b.json", text := "tb", json := .obj [("title", .str "B")] }

/-- Witness for C5: swapping two schema files leaves the loaded list — and
the emitted python module — unchanged, and a concrete common-member list is
sorted. -/
theorem c5_witness :
    read_schemas [rawB, rawA] =
      read_schemas [rawA, rawB] ∧
    Except.map gen_python (read_schemas [rawB, rawA]) =
      Except.map gen_python (read_schemas [rawA, rawB]) ∧
    [("Name", "string")].Pairwise (fun a b : String × String => a.1 ≤ b.1) := by
  obtain ⟨h1, h2, -⟩ := c5_determinism.1 [rawA, rawB] [rawB, rawA]
    (List.insertionSort schemaLe
      [{ url := mkUrl rawA.relpath, text := "ta", json := .obj [("title", .str "A")],
         golang_title := "A" ++ pyUpper (url_version (mkUrl rawA.relpath)),
         python_title := camel_to_snake ("A" ++ pyUpper (url_version (mkUrl rawA.relpath))) },
       { url := mkUrl rawB.relpath, text := "tb", json := .obj [("title", .str "B")],
         golang_title := "B" ++ pyUpper (url_version (mkUrl rawB.relpath)),
         python_title := camel_to_snake ("B" ++ pyUpper (url_version (mkUrl rawB.relpath))) }])
    (List.Perm.swap rawB rawA []) (by decide) rfl
  refine ⟨?_, h2, ?_⟩
  · rw [h1]
    rfl
  · exact c5_determinism.2 envC1 "expconf" textC1 ["AV1", "BV1"] [("Name", "string")] rfl

end Gen
